import Mathlib

/-!
# Verification of the chem-review-pwa progress state machine

Shallow embedding of the progress state machine and synchronization engine of
the chem-review-pwa application (`src/App.jsx` and `src/content/skills.js`),
together with proofs about the claims of its specification.

Modelling conventions:
* JS objects used as maps (answers, revealed, dayProgress, …) are embedded as
  association lists in insertion order, matching `Object.entries` iteration.
* JS numbers are embedded as exact rationals (`ℚ`); `Math.round`, `Math.trunc`
  and integer division are embedded exactly.  The source only forms these
  values from small integers, where double arithmetic is exact.
* JSON values are embedded by the inductive `JVal`; `JSON.parse` results are
  supplied as `JVal` inputs (the textual parser itself is host functionality).
-/

namespace ChemReview

/-- A multiple-choice question (`skills.js` schema).  The fields read by the
progress core are `id`, `choices` (only its length is consulted) and
`answer`; display-only fields (`kind`, `stem`, `explanation`,
`wrongReasonTags`) are not consulted by any modelled operation and are
omitted. -/
structure Question where
  id : String
  choices : List String
  answer : Nat
  deriving Repr, DecidableEq

/-- A skill ("topic"): `skills.js` schema. -/
structure Skill where
  id : String
  name : String
  diagnostic : List Question
  practice : List Question
  deriving Repr, DecidableEq

/-- Answer map: JS object mapping question id to chosen choice index, embedded
as an association list in insertion order.  Values are integers (the app
stores choice indices; imported values are truncated to integers). -/
abbrev AnswerMap := List (String × Int)

/-- `answersByQid[qid]`: first binding wins (JS objects have unique keys). -/
def lookupAnswer (m : AnswerMap) (qid : String) : Option Int :=
  (m.find? (fun p => p.1 == qid)).map (·.2)

/-- Per-skill mastery summary produced by `computeMastery`. -/
structure SkillStat where
  correct : Nat
  answered : Nat
  total : Nat
  mastery : Nat
  deriving Repr, DecidableEq

/-- `Math.round((correct / answered) * 100)` for `answered > 0`, computed
exactly: round-half-up of `100 * correct / answered`. -/
def roundPct (correct answered : Nat) : Nat :=
  (200 * correct + answered) / (2 * answered)

/-- The body of the `computeMastery` loop for one skill (`App.jsx`,
`computeMastery`): count answered and correct diagnostic questions and derive
the mastery percentage, with a zero summary for skills without diagnostic
questions. -/
def statFor (answers : AnswerMap) (s : Skill) : SkillStat :=
  let qs := s.diagnostic
  if qs.length = 0 then
    { correct := 0, answered := 0, total := 0, mastery := 0 }
  else
    let answered := (qs.filter (fun q => (lookupAnswer answers q.id).isSome)).length
    let correct := (qs.filter (fun q => lookupAnswer answers q.id = some (q.answer : Int))).length
    { correct := correct
      answered := answered
      total := qs.length
      mastery := if 0 < answered then roundPct correct answered else 0 }

/-- `computeMastery(skills, answersByQid)`: per-skill summary keyed by skill
id, in skill order (JS object insertion order; skill ids are unique). -/
def computeMastery (skills : List Skill) (answers : AnswerMap) : List (String × SkillStat) :=
  skills.map (fun s => (s.id, statFor answers s))

/-- One entry of the ranking built inside `pickPlan`. -/
structure RankEntry where
  skillId : String
  mastery : Nat
  total : Nat
  deriving Repr, DecidableEq

instance : Inhabited RankEntry := ⟨{ skillId := "", mastery := 0, total := 0 }⟩

/-- Insert into a list already sorted by ascending mastery, before the first
entry of equal or larger mastery.  Used to embed the stable ascending sort
`entries.sort((a, b) => a.mastery - b.mastery)`. -/
def insertRanked (x : RankEntry) : List RankEntry → List RankEntry
  | [] => [x]
  | y :: ys => if y.mastery < x.mastery then y :: insertRanked x ys else x :: y :: ys

/-- Stable sort by ascending mastery (ties keep input order), embedding the
JS stable `Array.prototype.sort` with comparator `a.mastery - b.mastery`. -/
def sortRanked : List RankEntry → List RankEntry
  | [] => []
  | x :: xs => insertRanked x (sortRanked xs)

/-- The fully ranked list built by `pickPlan`:
`Object.entries(perSkill).map(...).sort((a,b) => a.mastery - b.mastery)`. -/
def allRankedOf (perSkill : List (String × SkillStat)) : List RankEntry :=
  sortRanked (perSkill.map (fun p => { skillId := p.1, mastery := p.2.mastery, total := p.2.total }))

/-- The pool `pickPlan` cycles through: ranked entries with at least one
diagnostic question, falling back to the unfiltered ranking. -/
def poolOf (perSkill : List (String × SkillStat)) : List RankEntry :=
  let allRanked := allRankedOf perSkill
  let ranked := allRanked.filter (fun x => 0 < x.total)
  if ranked.isEmpty then allRanked else ranked

/-- `pickPlan(perSkill, days)` (`App.jsx`): rank skills ascending by mastery,
prefer skills with diagnostic questions, and fill `days` slots by cycling
through the pool with modulo indexing; empty plan if there are no skills. -/
def pickPlan (perSkill : List (String × SkillStat)) (days : Nat := 7) : List String :=
  let pool := poolOf perSkill
  if pool.isEmpty then []
  else (List.range days).map (fun i => (pool.getD (i % pool.length) default).skillId)

/-! ## The question bank (`src/content/skills.js`)

The four skills with their diagnostic and practice questions, transcribed
with the fields the core reads (ids, choices, correct-choice index). -/

/-- Skill `mole` from `skills.js`. -/
def moleSkill : Skill :=
  { id := "mole"
    name := "莫耳與粒子數（NA）"
    diagnostic :=
      [ { id := "mole_d1", choices := ["6.02×10^23", "3.01×10^23", "1.00×10^23", "9.81×10^23"], answer := 0 }
      , { id := "mole_d2", choices := ["3.01×10^23", "6.02×10^23", "1.20×10^24", "2.00×10^23"], answer := 0 }
      , { id := "mole_d3", choices := ["0.50 mol", "1.0 mol", "2.0 mol", "6.02 mol"], answer := 2 } ]
    practice :=
      [ { id := "mole_p1", choices := ["1.204×10^24", "6.02×10^23", "3.01×10^23", "2.0×10^23"], answer := 0 }
      , { id := "mole_p2", choices := ["1.505×10^23", "6.02×10^23", "3.01×10^23", "2.408×10^24"], answer := 0 }
      , { id := "mole_p3", choices := ["0.50", "1.0", "2.0", "5.0"], answer := 0 }
      , { id := "mole_p4", choices := ["6.02×10^22", "6.02×10^23", "6.02×10^21", "1.0×10^23"], answer := 0 }
      , { id := "mole_p5", choices := ["1 mol H2 與 1 mol He 的分子數", "1 mol CO2 與 1 mol NaCl 的粒子數", "1 mol O2 與 1 mol O 的粒子數", "以上皆是"], answer := 3 }
      , { id := "mole_p6", choices := ["0.25", "0.50", "1.0", "2.0"], answer := 2 }
      , { id := "mole_p7", choices := ["1.0", "2.0", "4.0", "5.0"], answer := 2 }
      , { id := "mole_p8", choices := ["0.01", "0.10", "1.0", "10"], answer := 1 }
      , { id := "mole_p9", choices := ["0.20", "0.40", "0.60", "1.0"], answer := 2 }
      , { id := "mole_p10", choices := ["1 mol 一定是 6.02×10^23 g", "1 mol 代表固定質量", "1 mol 代表固定粒子數", "1 mol 代表固定體積"], answer := 2 } ] }

/-- Skill `molar-mass` from `skills.js`. -/
def molarMassSkill : Skill :=
  { id := "molar-mass"
    name := "分子量/式量與化學式計算"
    diagnostic :=
      [ { id := "mm_d1", choices := ["17", "18", "16", "20"], answer := 1 }
      , { id := "mm_d2", choices := ["100", "96", "104", "112"], answer := 0 } ]
    practice :=
      [ { id := "mm_p1", choices := ["28", "32", "44", "48"], answer := 2 }
      , { id := "mm_p2", choices := ["110", "142", "138", "120"], answer := 1 }
      , { id := "mm_p3", choices := ["78", "69", "60", "84"], answer := 0 }
      , { id := "mm_p4", choices := ["15", "16", "17", "18"], answer := 2 }
      , { id := "mm_p5", choices := ["59.5", "95", "71", "60"], answer := 1 }
      , { id := "mm_p6", choices := ["CH4", "C2H6", "C2H4", "C3H8"], answer := 3 }
      , { id := "mm_p7", choices := ["85", "101", "93", "87"], answer := 1 }
      , { id := "mm_p8", choices := ["57", "74", "58", "72"], answer := 1 }
      , { id := "mm_p9", choices := ["160", "112", "176", "144"], answer := 0 }
      , { id := "mm_p10", choices := ["下標代表元素的原子量", "括號外下標會乘進括號內每個元素", "括號只用於離子化合物", "括號外下標只乘第一個元素"], answer := 1 } ] }

/-- Skill `stoichiometry` from `skills.js`. -/
def stoichiometrySkill : Skill :=
  { id := "stoichiometry"
    name := "化學計量（莫耳比、質量比）"
    diagnostic :=
      [ { id := "st_d1", choices := ["1", "2", "4", "8"], answer := 1 }
      , { id := "st_d2", choices := ["0.5", "1", "2", "3"], answer := 1 } ]
    practice :=
      [ { id := "st_p1", choices := ["1", "2", "3", "6"], answer := 1 }
      , { id := "st_p2", choices := ["0.25", "0.50", "1.0", "2.0"], answer := 2 }
      , { id := "st_p3", choices := ["3", "4", "6", "8"], answer := 2 }
      , { id := "st_p4", choices := ["0.01", "0.05", "0.10", "1.0"], answer := 2 }
      , { id := "st_p5", choices := ["1", "4.5", "9", "18"], answer := 1 }
      , { id := "st_p6", choices := ["1.5", "3.0", "6.0", "0.67"], answer := 1 }
      , { id := "st_p7", choices := ["1.0", "2.0", "4.0", "8.0"], answer := 2 }
      , { id := "st_p8", choices := ["0.5", "1.0", "1.5", "3.0"], answer := 2 }
      , { id := "st_p9", choices := ["1.0", "2.0", "0.5", "4.0"], answer := 1 }
      , { id := "st_p10", choices := ["先背所有式量", "先把方程式配平再談莫耳比", "先把濃度算出來", "先把體積換成質量"], answer := 1 } ] }

/-- Skill `molarity` from `skills.js`. -/
def molaritySkill : Skill :=
  { id := "molarity"
    name := "溶液濃度（莫耳濃度 M、稀釋）"
    diagnostic :=
      [ { id := "mo_d1", choices := ["0.50 M", "1.0 M", "2.0 M", "0.25 M"], answer := 0 }
      , { id := "mo_d2", choices := ["0.50 M", "1.0 M", "2.0 M", "8.0 M"], answer := 0 }
      , { id := "mo_d3", choices := ["0.010", "0.020", "0.100", "0.200"], answer := 0 } ]
    practice :=
      [ { id := "mo_p1", choices := ["0.50", "1.0", "2.0", "0.20"], answer := 2 }
      , { id := "mo_p2", choices := ["0.05", "0.50", "0.005", "0.20"], answer := 0 }
      , { id := "mo_p3", choices := ["0.075", "0.15", "0.030", "0.50"], answer := 0 }
      , { id := "mo_p4", choices := ["0.05", "0.10", "0.20", "0.50"], answer := 0 }
      , { id := "mo_p5", choices := ["0.40", "0.25", "2.5", "1.5"], answer := 0 }
      , { id := "mo_p6", choices := ["0.25", "1.0", "2.0", "4.0"], answer := 1 }
      , { id := "mo_p7", choices := ["25", "50", "62.5", "125"], answer := 2 }
      , { id := "mo_p8", choices := ["稀釋後溶質 mol 數不變", "稀釋後溶質質量會增加", "稀釋後體積變小", "稀釋後濃度一定變大"], answer := 0 }
      , { id := "mo_p9", choices := ["每 1 L 溶液含 0.10 mol 溶質", "每 1 L 溶液含 0.10 g 溶質", "每 1 mol 溶液含 0.10 L 溶質", "每 1 L 溶液含 0.10 mol 溶劑"], answer := 0 }
      , { id := "mo_p10", choices := ["0.10", "0.20", "0.40", "1.0"], answer := 1 } ] }

/-- `SKILLS` from `skills.js`. -/
def SKILLS : List Skill := [moleSkill, molarMassSkill, stoichiometrySkill, molaritySkill]

/-- `getSkillById` from `skills.js`. -/
def getSkillById (skills : List Skill) (id : String) : Option Skill :=
  skills.find? (fun s => s.id == id)

/-- `getAllDiagnosticQuestions` from `skills.js` (the added `skillId`
annotation is display-only and omitted). -/
def getAllDiagnosticQuestions (skills : List Skill) : List Question :=
  skills.flatMap (fun s => s.diagnostic)

/-- `getPracticeQuestionsForSkill` from `skills.js`. -/
def getPracticeQuestionsForSkill (skills : List Skill) (skillId : String) : List Question :=
  match getSkillById skills skillId with
  | some s => s.practice
  | none => []

/-! ## Diagnostic submission (`App.jsx`, `submitDiagnostic`) -/

/-- The `view` React state (`home|diagnostic|result|task`). -/
inductive View where
  | home | diagnostic | result | task
  deriving Repr, DecidableEq

/-- Per-day progress entry (`{ conceptDone, practiceDone }`). -/
structure DayEntry where
  conceptDone : Bool
  practiceDone : Bool
  deriving Repr, DecidableEq

/-- Day progress map: day index → entry, as an insertion-ordered association
list (JS object keys are the decimal strings of the day indices; the model
uses the indices themselves and renders the decimal key at serialization). -/
abbrev DayProgressMap := List (Nat × DayEntry)

/-- Revealed map: practice question id → "answer shown". -/
abbrev RevealedMap := List (String × Bool)

/-- The slice of the React state that `submitDiagnostic` reads or writes. -/
structure AppState where
  plan : List String
  dayIndex : Nat
  answers : AnswerMap
  dayProgress : DayProgressMap
  revealed : RevealedMap
  diagIndex : Nat
  view : View
  deriving Repr, DecidableEq

/-- Result reported by `submitDiagnostic` (alert messages abstracted to the
condition they report). -/
inductive SubmitOutcome where
  /-- `你還有題目沒作答（第 pos+1 題）` — incomplete diagnostic, `pos` is the
  0-based index of the first unanswered question. -/
  | incomplete (pos : Nat)
  /-- `目前無法產生路徑…` — plan generation returned an empty plan. -/
  | noTopics
  | ok
  deriving Repr, DecidableEq

/-- `Array.prototype.findIndex`, with `none` for JS `-1`: the index of the
first element satisfying the predicate. -/
def jsFindIndex (p : α → Bool) (l : List α) : Option Nat :=
  go l 0
where
  go : List α → Nat → Option Nat
    | [], _ => none
    | x :: xs, i => if p x then some i else go xs (i + 1)

/-- `submitDiagnostic` (`App.jsx`): guard on the first unanswered diagnostic
question; on success generate a 7-day plan, reset the day cursor and clear
per-day state; fail without mutation when the plan would be empty. -/
def submitDiagnostic (skills : List Skill) (st : AppState) : SubmitOutcome × AppState :=
  let allQuestions := getAllDiagnosticQuestions skills
  match jsFindIndex (fun q => (lookupAnswer st.answers q.id).isNone) allQuestions with
  | some k => (.incomplete k, { st with diagIndex := k })
  | none =>
    let newPlan := pickPlan (computeMastery skills st.answers) 7
    if newPlan.isEmpty then (.noTopics, st)
    else
      (.ok, { st with
                plan := newPlan
                dayIndex := 0
                dayProgress := []
                revealed := []
                view := .result })

/-! ## Practice toggle (`App.jsx`, practice "標記" button) -/

/-- `Boolean(revealed?.[q.id])`: absent keys count as not revealed. -/
def isRevealed (revealed : RevealedMap) (qid : String) : Bool :=
  ((revealed.find? (fun p => p.1 == qid)).map (·.2)).getD false

/-- `allPracticeRevealed`: every practice question of the current day's skill
is revealed (vacuously true for an empty practice list).  The handler reads
the possibly shuffled copy of the list; shuffling permutes the same
questions, so `every` is evaluated on the same set and the unshuffled list is
used here. -/
def allPracticeRevealed (practiceQs : List Question) (revealed : RevealedMap) : Bool :=
  practiceQs.all (fun q => isRevealed revealed q.id)

/-- `{...p, [dayIndex]: {...(p?.[dayIndex] || {}), practiceDone: v}}`:
update the entry in place if the key exists, else append it. -/
def setPracticeDone (dp : DayProgressMap) (day : Nat) (v : Bool) : DayProgressMap :=
  if dp.any (fun p => p.1 == day) then
    dp.map (fun p => if p.1 == day then (p.1, { p.2 with practiceDone := v }) else p)
  else
    dp ++ [(day, { conceptDone := false, practiceDone := v })]

/-- Result of a practice-toggle click (the alert abstracted as `blocked`). -/
inductive ToggleOutcome where
  | turnedOff | blocked | turnedOn
  deriving Repr, DecidableEq

/-- `practiceDone` of the current day (`Boolean(dayProgress?.[dayIndex]?.practiceDone)`). -/
def practiceDoneAt (dp : DayProgressMap) (day : Nat) : Bool :=
  ((dp.find? (fun p => p.1 == day)).map (·.2.practiceDone)).getD false

/-- `conceptDone` of a day. -/
def conceptDoneAt (dp : DayProgressMap) (day : Nat) : Bool :=
  ((dp.find? (fun p => p.1 == day)).map (·.2.conceptDone)).getD false

/-- The practice "標記" onClick handler (`App.jsx`): toggling off is always
allowed; toggling on requires `allPracticeRevealed`, otherwise an alert is
shown and nothing is mutated. -/
def practiceToggle (practiceQs : List Question) (revealed : RevealedMap)
    (dayIndex : Nat) (dp : DayProgressMap) : ToggleOutcome × DayProgressMap :=
  let cur := practiceDoneAt dp dayIndex
  if cur then (.turnedOff, setPracticeDone dp dayIndex false)
  else if !allPracticeRevealed practiceQs revealed then (.blocked, dp)
  else (.turnedOn, setPracticeDone dp dayIndex true)

/-! ## JSON values

`JSON.parse` results are embedded as `JVal`; property access, `typeof`
checks, truthiness and the `Number(...)` coercion are modelled below.  JS
numbers are exact rationals here (the app only handles small integers, where
double arithmetic is exact). -/

/-- A parsed JSON value. -/
inductive JVal where
  | null
  | bool (b : Bool)
  | num (x : ℚ)
  | str (s : String)
  | arr (xs : List JVal)
  | obj (fields : List (String × JVal))

/-- Property access `v[k]`: `none` models JS `undefined` (missing property
or non-object receiver).  JSON object keys are unique, so first match wins. -/
def jget (v : JVal) (k : String) : Option JVal :=
  match v with
  | .obj fs => (fs.find? (fun p => p.1 == k)).map (·.2)
  | _ => none

/-- `typeof v === 'object' && v` (arrays and objects; JS `typeof null` is
`'object'` but `null` is falsy, so the combined guard admits exactly these). -/
def isObjLike : JVal → Bool
  | .obj _ => true
  | .arr _ => true
  | _ => false

/-- JS truthiness (`Boolean(v)`) of a JSON value. -/
def jsTruthy : JVal → Bool
  | .null => false
  | .bool b => b
  | .num x => !(x == 0)
  | .str s => !(s == "")
  | .arr _ => true
  | .obj _ => true

/-- `Boolean(v)` where `v` may be `undefined`. -/
def jsTruthyOpt : Option JVal → Bool
  | none => false
  | some v => jsTruthy v

/-- `Object.entries(v)` for a value that passed the `v && typeof v ===
'object'` guard: object fields in insertion order, array elements keyed by
their decimal index. -/
def jEntries : JVal → List (String × JVal)
  | .obj fs => fs
  | .arr xs => xs.enum.map (fun p => (toString p.1, p.2))
  | _ => []

/-- `Object.entries` applied behind the usual `!obj || typeof obj !==
'object'` guard (yielding no entries for `undefined`, `null` and
primitives). -/
def jEntriesOpt : Option JVal → List (String × JVal)
  | some v => jEntries v
  | none => []

/-- The decimal digit value of a character, if any. -/
def digitVal? (c : Char) : Option Nat :=
  if 48 ≤ c.toNat ∧ c.toNat ≤ 57 then some (c.toNat - 48) else none

/-- Split a leading run of decimal digits (values, most significant first)
from a character list. -/
def takeDigits : List Char → List Nat × List Char
  | [] => ([], [])
  | c :: cs =>
    match digitVal? c with
    | some d => let r := takeDigits cs; (d :: r.1, r.2)
    | none => ([], c :: cs)

/-- Strip a leading `-`/`+` sign. -/
def stripSign (cs : List Char) : Bool × List Char :=
  match cs with
  | [] => (false, [])
  | c :: rest => if c = '-' then (true, rest) else if c = '+' then (false, rest) else (false, cs)

/-- JS whitespace: the characters string `ToNumber` skips at either end —
tab, line feed, vertical tab, form feed, carriage return, space, no-break
space, the Unicode space separators, the line and paragraph separators, and
the byte-order mark. -/
def isJsWhitespace (c : Char) : Bool :=
  c.toNat == 9 || c.toNat == 10 || c.toNat == 11 || c.toNat == 12 ||
  c.toNat == 13 || c.toNat == 32 || c.toNat == 160 || c.toNat == 5760 ||
  (8192 ≤ c.toNat && c.toNat ≤ 8202) || c.toNat == 8232 || c.toNat == 8233 ||
  c.toNat == 8239 || c.toNat == 8287 || c.toNat == 12288 || c.toNat == 65279

/-- Strip leading and trailing JS whitespace, as string `ToNumber` does. -/
def jsTrim (cs : List Char) : List Char :=
  ((cs.dropWhile isJsWhitespace).reverse.dropWhile isJsWhitespace).reverse

/-- Split a leading run of digits recognised by `dv` (values, most
significant first) from a character list. -/
def takeDigitsBy (dv : Char → Option Nat) : List Char → List Nat × List Char
  | [] => ([], [])
  | c :: cs =>
    match dv c with
    | some d => let r := takeDigitsBy dv cs; (d :: r.1, r.2)
    | none => ([], c :: cs)

/-- The hexadecimal digit value of a character, if any. -/
def hexDigitVal? (c : Char) : Option Nat :=
  if 48 ≤ c.toNat ∧ c.toNat ≤ 57 then some (c.toNat - 48)
  else if 97 ≤ c.toNat ∧ c.toNat ≤ 102 then some (c.toNat - 87)
  else if 65 ≤ c.toNat ∧ c.toNat ≤ 70 then some (c.toNat - 55)
  else none

/-- The octal digit value of a character, if any. -/
def octDigitVal? (c : Char) : Option Nat :=
  if 48 ≤ c.toNat ∧ c.toNat ≤ 55 then some (c.toNat - 48) else none

/-- The binary digit value of a character, if any. -/
def binDigitVal? (c : Char) : Option Nat :=
  if 48 ≤ c.toNat ∧ c.toNat ≤ 49 then some (c.toNat - 48) else none

/-- The body of a `0x`/`0o`/`0b` radix literal: at least one digit and
nothing after the digits, read in base `b`. -/
def parseRadix (b : Nat) (dv : Char → Option Nat) (cs : List Char) : Option ℚ :=
  if (takeDigitsBy dv cs).1.isEmpty || !(takeDigitsBy dv cs).2.isEmpty then none
  else some ((Nat.ofDigits b (takeDigitsBy dv cs).1.reverse : ℕ) : ℚ)

/-- Does the (trimmed) input start with `0` followed by one of the radix
marker characters?  A sign before a radix prefix makes the literal NaN, so
this is tested before sign stripping. -/
def startsWithRadixPrefix (cs markers : List Char) : Bool :=
  match cs with
  | c0 :: c1 :: _ => c0 == '0' && markers.contains c1
  | _ => false

/-- The optional exponent suffix after the mantissa of a decimal string
literal: end of input keeps the mantissa; `e`/`E`, an optional sign and at
least one digit (with nothing after) scale it by the power of ten, computed
exactly in `ℚ`; any other trailing text makes the literal NaN. -/
def applyExponent (mant : ℚ) : List Char → Option ℚ
  | [] => some mant
  | c :: rest =>
    if c = 'e' ∨ c = 'E' then
      let sg := stripSign rest
      let ep := takeDigits sg.2
      if ep.1.isEmpty || !ep.2.isEmpty then none
      else
        let e : Nat := Nat.ofDigits 10 ep.1.reverse
        some (if sg.1 then mant / 10 ^ e else mant * 10 ^ e)
    else none

/-- The unsigned decimal-literal body: integer digits, an optional
fractional part after `'.'` (with at least one digit on one of the two
sides of the point), then an optional exponent. -/
def parseDecimalBody (cs : List Char) : Option ℚ :=
  match takeDigits cs with
  | (ipd, []) => if ipd.isEmpty then none else some (Nat.ofDigits 10 ipd.reverse : ℚ)
  | (ipd, c :: rest) =>
    if c = '.' then
      match takeDigits rest with
      | (fpd, rest2) =>
        if ipd.isEmpty && fpd.isEmpty then none
        else applyExponent ((Nat.ofDigits 10 ipd.reverse : ℚ) +
          (Nat.ofDigits 10 fpd.reverse : ℚ) / 10 ^ fpd.length) rest2
    else
      if ipd.isEmpty then none
      else applyExponent (Nat.ofDigits 10 ipd.reverse : ℚ) (c :: rest)

/-- An optionally signed decimal literal or `Infinity`.  `±Infinity` is a
non-finite result: every use of this coercion in the app guards it with
`Number.isFinite` or `Number.isInteger`, under which an infinity is
indistinguishable from NaN, so it maps to `none` like NaN does. -/
def parseJsSigned (cs : List Char) : Option ℚ :=
  if (stripSign cs).2 = "Infinity".data then none
  else (parseDecimalBody (stripSign cs).2).map
    (fun v => if (stripSign cs).1 then -v else v)

/-- Model of JS `Number(s)` for a string: whitespace is trimmed from both
ends; an empty remainder coerces to `0`; `0x`/`0o`/`0b` radix literals and
optionally signed decimal literals with optional fraction and exponent
(`"12"`, `"-3.5"`, `" 2 "`, `"2e0"`, `"1.5E-2"`, `"0x1A"`) coerce to their
values, computed exactly in `ℚ` per the exact-rational embedding of JS
numbers; `±Infinity` and everything else map to `none` (a non-finite
result: the app tests every coercion with `Number.isFinite` or
`Number.isInteger`, which reject NaN and infinities alike). -/
def parseJsNumber (s : String) : Option ℚ :=
  if (jsTrim s.data).isEmpty then some 0
  else if startsWithRadixPrefix (jsTrim s.data) ['x', 'X'] then
    parseRadix 16 hexDigitVal? ((jsTrim s.data).drop 2)
  else if startsWithRadixPrefix (jsTrim s.data) ['o', 'O'] then
    parseRadix 8 octDigitVal? ((jsTrim s.data).drop 2)
  else if startsWithRadixPrefix (jsTrim s.data) ['b', 'B'] then
    parseRadix 2 binDigitVal? ((jsTrim s.data).drop 2)
  else parseJsSigned (jsTrim s.data)

/-- JS `Number` of a value appearing as the sole element of an array:
`Array.prototype.join` renders `null` as the empty string (which coerces to
`0`), a number as its decimal form (whose coercion gives it back exactly), a
string as itself, a boolean as `true`/`false` and an object as
`[object Object]` (both NaN), and a nested array as its own join — empty
`""` (so `0`), a singleton as its element's rendering, and anything longer
as comma-separated text, which is never numeric. -/
def arrayElemToNumber : JVal → Option ℚ
  | .null => some 0
  | .num q => some q
  | .str s => parseJsNumber s
  | .bool _ => none
  | .obj _ => none
  | .arr [] => some 0
  | .arr [x] => arrayElemToNumber x
  | .arr _ => none

/-- Model of JS `Number(v)` on a JSON value: numbers pass through, booleans
coerce to `0`/`1` and `null` to `0`, strings parse per `parseJsNumber`,
plain objects stringify to `[object Object]` (NaN), and an array coerces
through its join: `[]` to `0`, a one-element array to the coercion of its
element's string form, and a longer array to NaN, its join containing a
comma. -/
def jsToNumber : JVal → Option ℚ
  | .num x => some x
  | .bool b => some (if b then 1 else 0)
  | .null => some 0
  | .str s => parseJsNumber s
  | .obj _ => none
  | .arr [] => some 0
  | .arr [x] => arrayElemToNumber x
  | .arr _ => none

/-- `Math.trunc`: round toward zero. -/
def jsTrunc (x : ℚ) : Int := if 0 ≤ x then ⌊x⌋ else ⌈x⌉

/-- `Math.max(a, b)` on (non-NaN) numbers. -/
def jsMax (a b : ℚ) : ℚ := if a < b then b else a

/-- `Math.min(a, b)` on (non-NaN) numbers. -/
def jsMin (a b : ℚ) : ℚ := if a < b then a else b

/-- `Math.max(0, Math.min(planLen - 1, q))`: the day-cursor clamp used by
the import and cross-tab adoption paths.  The JS subtraction `planLen - 1` is exact
integer arithmetic, computed here in `ℤ` before comparing with the (possibly
fractional) incoming cursor. -/
def clampDayIndex (planLen : Nat) (q : ℚ) : ℚ :=
  jsMax 0 (jsMin (((planLen : Int) - 1 : Int) : ℚ) q)

/-- JS `String(n)` for a nonnegative integer (the canonical decimal form JS
object keys take): most-significant-first decimal digits. -/
def natKey (n : Nat) : String :=
  if n = 0 then "0"
  else String.mk (((Nat.digits 10 n).reverse).map (fun d => Char.ofNat (48 + d)))

/-! ## Import sanitization (`App.jsx`, `sanitizeImported*`) -/

/-- `diagnosticMeta.qById[qid].choicesLen`: the choice count of a known
diagnostic question (question ids are unique). -/
def qChoicesLen (skills : List Skill) (qid : String) : Option Nat :=
  ((getAllDiagnosticQuestions skills).find? (fun q => q.id == qid)).map (fun q => q.choices.length)

/-- `diagnosticMeta.practiceIds`: all practice question ids. -/
def practiceIdList (skills : List Skill) : List String :=
  skills.flatMap (fun s => (getPracticeQuestionsForSkill skills s.id).map (·.id))

/-- Loop body of `sanitizeImportedPlan`: keep strings naming known skills. -/
def importPlanEntry (skills : List Skill) (x : JVal) : Option String :=
  match x with
  | .str sid => if (skills.map (·.id)).contains sid then some sid else none
  | _ => none

/-- `sanitizeImportedPlan`: `null` for a non-array, else the entries that are
strings naming currently-known skills. -/
def sanitizeImportedPlan (skills : List Skill) (v : Option JVal) : Option (List String) :=
  match v with
  | some (.arr xs) => some (xs.filterMap (importPlanEntry skills))
  | _ => none

/-- Loop body of `sanitizeImportedAnswers`: a known diagnostic question id
whose value coerces to a finite number whose truncation lies within the
question's choice bounds; the truncation is stored. -/
def importAnswerEntry (skills : List Skill) (p : String × JVal) : Option (String × Int) :=
  match qChoicesLen skills p.1 with
  | none => none
  | some choicesLen =>
    match jsToNumber p.2 with
    | none => none
    | some n =>
      let i := jsTrunc n
      if i < 0 || (choicesLen : Int) ≤ i then none else some (p.1, i)

/-- `sanitizeImportedAnswers`: keep entries keyed by a known diagnostic
question whose value coerces to a finite number whose truncation lies within
the question's choice bounds. -/
def sanitizeImportedAnswers (skills : List Skill) (v : Option JVal) : AnswerMap :=
  (jEntriesOpt v).filterMap (importAnswerEntry skills)

/-- Loop body of `sanitizeImportedRevealed`. -/
def importRevealedEntry (skills : List Skill) (p : String × JVal) : Option (String × Bool) :=
  if (practiceIdList skills).contains p.1 then some (p.1, jsTruthy p.2) else none

/-- `sanitizeImportedRevealed`: keep boolean-coerced entries keyed by a
known practice question id. -/
def sanitizeImportedRevealed (skills : List Skill) (v : Option JVal) : RevealedMap :=
  (jEntriesOpt v).filterMap (importRevealedEntry skills)

/-- Loop body of `sanitizeImportedDayProgress`: an integer key within
`[0, planLen)` with an object value, whose sub-fields are boolean-coerced. -/
def importDayProgressEntry (planLen : Nat) (p : String × JVal) : Option (Nat × DayEntry) :=
  match parseJsNumber p.1 with
  | none => none
  | some day =>
    if day.den = 1 then
      if day.num < 0 || (planLen : Int) ≤ day.num then none
      else if isObjLike p.2 then
        some (day.num.toNat,
          { conceptDone := jsTruthyOpt (jget p.2 "conceptDone")
            practiceDone := jsTruthyOpt (jget p.2 "practiceDone") })
      else none
    else none

/-- `sanitizeImportedDayProgress`: keep object-valued entries whose key is an
integer within `[0, planLen)`, with boolean-coerced sub-fields.  (The app
serializes day keys canonically, so distinct keys denote distinct days.) -/
def sanitizeImportedDayProgress (v : Option JVal) (planLen : Nat) : DayProgressMap :=
  (jEntriesOpt v).filterMap (importDayProgressEntry planLen)

/-! ## Import application (`App.jsx`, `applyImportedProgress`) -/

/-- The context an import runs in: the user's replies to the two possible
`window.confirm` dialogs, and the current time stamp. -/
structure ImportEnv where
  confirmVersion : Bool
  confirmDrop : Bool
  nowIso : String
  deriving Repr, DecidableEq

/-- The state committed by a successful import (the React state slice the
`set*` calls replace, plus the resulting view). -/
structure ImportedState where
  plan : List String
  dayIndex : ℚ
  answers : AnswerMap
  dayProgress : DayProgressMap
  revealed : RevealedMap
  autoNext : Bool
  shufflePractice : Bool
  savedAt : String
  lastExportedAt : String
  view : View
  deriving Repr, DecidableEq

/-- Result of `applyImportedProgress` (alerts/confirm aborts abstracted to
the condition they report; the function's boolean return is `false` exactly
for the first three constructors). -/
inductive ImportResult where
  /-- `格式不正確：不是 JSON 物件`. -/
  | notObject
  /-- The user declined the version-mismatch confirm. -/
  | versionRejected
  /-- The user declined the dropped-entries confirm (with the counts shown). -/
  | dropRejected (droppedPlan droppedAnswers : Nat)
  /-- Import committed, with the dropped-entry counts that were computed
  (a warning was shown beforehand iff either is nonzero). -/
  | applied (st : ImportedState) (droppedPlan droppedAnswers : Nat)
  deriving Repr, DecidableEq

/-- `applyImportedProgress(parsed)` (`App.jsx`): version warning, field-wise
sanitization, dropped-entry warning, day-cursor clamping, atomic commit.
(The direct `storageSet` and the skip-next-persist flag it sets are modelled
separately in `FlushModel`.) -/
def applyImportedProgress (skills : List Skill) (parsed : JVal) (env : ImportEnv) : ImportResult :=
  if !(jsTruthy parsed && isObjLike parsed) then .notObject
  else
    -- `Number(parsed.version ?? 1)`
    let importedVersion : Option ℚ :=
      match jget parsed "version" with
      | none => some 1
      | some .null => some 1
      | some v => jsToNumber v
    let versionMismatch :=
      match importedVersion with
      | some q => decide (q ≠ 1)
      | none => false
    if versionMismatch && !env.confirmVersion then .versionRejected
    else
      let nextPlan := (sanitizeImportedPlan skills (jget parsed "plan")).getD []
      let nextDayIndex : ℚ :=
        match jget parsed "dayIndex" with
        | some (.num q) => q
        | _ => 0
      let nextAnswers := sanitizeImportedAnswers skills (jget parsed "answers")
      let nextDayProgress := sanitizeImportedDayProgress (jget parsed "dayProgress") nextPlan.length
      let nextRevealed := sanitizeImportedRevealed skills (jget parsed "revealed")
      let nextAutoNext :=
        match jget parsed "autoNext" with
        | some (.bool b) => b
        | _ => true
      let nextShufflePractice :=
        match jget parsed "shufflePractice" with
        | some (.bool b) => b
        | _ => false
      let importedSavedAt :=
        match jget parsed "savedAt" with
        | some (.str s) => s
        | _ => ""
      let effectiveSavedAt := if importedSavedAt = "" then env.nowIso else importedSavedAt
      let importedLastExportedAt :=
        match jget parsed "lastExportedAt" with
        | some (.str s) => s
        | _ => ""
      let rawPlanLen :=
        match jget parsed "plan" with
        | some (.arr xs) => xs.length
        | _ => 0
      let rawAnswersLen :=
        match jget parsed "answers" with
        | some v => if jsTruthy v && isObjLike v then (jEntries v).length else 0
        | none => 0
      let droppedPlan := rawPlanLen - nextPlan.length
      let droppedAnswers := rawAnswersLen - nextAnswers.length
      if (decide (0 < droppedPlan) || decide (0 < droppedAnswers)) && !env.confirmDrop then
        .dropRejected droppedPlan droppedAnswers
      else
        let clampedDayIndex : ℚ := clampDayIndex nextPlan.length nextDayIndex
        .applied
          { plan := nextPlan
            dayIndex := clampedDayIndex
            answers := nextAnswers
            dayProgress := nextDayProgress
            revealed := nextRevealed
            autoNext := nextAutoNext
            shufflePractice := nextShufflePractice
            savedAt := effectiveSavedAt
            lastExportedAt := importedLastExportedAt
            view := if 0 < nextPlan.length then .result else .home }
          droppedPlan droppedAnswers

/-! ## Export (`App.jsx`, `exportProgress`) -/

/-- The progress record slice that is persisted and exported (`§6` of the
spec): exactly the fields the reactive persist effect serializes. -/
structure ProgressState where
  plan : List String
  dayIndex : Nat
  answers : AnswerMap
  dayProgress : DayProgressMap
  revealed : RevealedMap
  autoNext : Bool
  shufflePractice : Bool
  savedAt : String
  lastExportedAt : String
  deriving Repr, DecidableEq

/-- The JSON payload built by `exportProgress`: export metadata (version,
timestamps, optional app/build info, best-effort device info) followed by
the progress record.  `appVersion`/`buildTime` mirror `APP_VERSION ||
undefined` (omitted when absent, as `JSON.stringify` drops `undefined`
properties); `savedAt` is omitted when empty for the same reason. -/
def exportPayload (st : ProgressState) (nowIso : String)
    (appVersion buildTime : Option String) (device : JVal) : JVal :=
  .obj
    ([("version", .num 1), ("exportedAt", .str nowIso)]
      ++ (match appVersion with | some s => [("appVersion", JVal.str s)] | none => [])
      ++ (match buildTime with | some s => [("buildTime", JVal.str s)] | none => [])
      ++ [("device", device),
          ("plan", .arr (st.plan.map .str)),
          ("dayIndex", .num (st.dayIndex : ℚ)),
          ("answers", .obj (st.answers.map (fun p => (p.1, JVal.num (p.2 : ℚ))))),
          ("dayProgress", .obj (st.dayProgress.map (fun p =>
            (natKey p.1, JVal.obj [("conceptDone", .bool p.2.conceptDone),
                                   ("practiceDone", .bool p.2.practiceDone)])))),
          ("revealed", .obj (st.revealed.map (fun p => (p.1, JVal.bool p.2)))),
          ("autoNext", .bool st.autoNext),
          ("shufflePractice", .bool st.shufflePractice)]
      ++ (if st.savedAt = "" then [] else [("savedAt", JVal.str st.savedAt)])
      ++ [("lastExportedAt", .str nowIso)])

/-! ## Cross-tab storage events (`App.jsx`, `onStorage`) -/

/-- The React state slice `onStorage` touches.  Adoption stores the raw
parsed objects (`next.answers` etc. are adopted without per-entry
sanitization), so those fields hold `JVal`s here, exactly as the JS state
would. -/
structure StoreState where
  savedAt : String
  lastExportedAt : String
  view : View
  diagIndex : Nat
  answers : JVal
  plan : List JVal
  dayIndex : ℚ
  dayProgress : JVal
  revealed : JVal
  autoNext : Bool
  shufflePractice : Bool
  storageWritable : Bool
  skipNextPersist : Bool

/-- A `storage` event for the app's key, as seen after `safeParse`:
the key was removed (`e.newValue == null`), or it was written and the new
string parsed to `parsed` (`none` when `JSON.parse` throws). -/
inductive StorageEventVal where
  | removed
  | written (parsed : Option JVal)

/-- `next.answers && typeof next.answers === 'object' ? next.answers : {}`. -/
def objOrEmpty (v : Option JVal) : JVal :=
  match v with
  | some w => if isObjLike w then w else .obj []
  | none => .obj []

/-- `onStorage` (`App.jsx`): reset on removal; ignore values that do not
parse to an object; otherwise adopt every field, clamping the day cursor,
and suppress the next reactive persist. -/
def onStorage (ev : StorageEventVal) (st : StoreState) : StoreState :=
  match ev with
  | .removed =>
    { savedAt := ""
      lastExportedAt := ""
      view := .home
      diagIndex := 0
      answers := .obj []
      plan := []
      dayIndex := 0
      dayProgress := .obj []
      revealed := .obj []
      autoNext := true
      shufflePractice := false
      storageWritable := true
      skipNextPersist := true }
  | .written none => st
  | .written (some next) =>
    if !(jsTruthy next && isObjLike next) then st
    else
      let nextPlan :=
        match jget next "plan" with
        | some (.arr xs) => xs
        | _ => []
      let nextDayIndex : ℚ :=
        match jget next "dayIndex" with
        | some (.num q) => q
        | _ => 0
      let clampedDayIndex : ℚ := clampDayIndex nextPlan.length nextDayIndex
      { st with
          skipNextPersist := true
          plan := nextPlan
          dayIndex := clampedDayIndex
          answers := objOrEmpty (jget next "answers")
          dayProgress := objOrEmpty (jget next "dayProgress")
          revealed := objOrEmpty (jget next "revealed")
          autoNext := (match jget next "autoNext" with | some (.bool b) => b | _ => true)
          shufflePractice := (match jget next "shufflePractice" with | some (.bool b) => b | _ => false)
          savedAt := (match jget next "savedAt" with | some (.str s) => s | _ => "")
          lastExportedAt := (match jget next "lastExportedAt" with | some (.str s) => s | _ => "")
          storageWritable := true }

/-! ## Debounced flush and forced flush (`App.jsx` lines 772–830)

The reactive persist effect captures the current record into
`lastPersistPayloadRef` and schedules `persistNow`; `persistNow` (also
invoked synchronously at forced-flush points: `visibilitychange` to hidden
and `pagehide`) writes the *captured ref*, not the live state.  The
skip-next-persist flag makes the effect consume itself without recapturing. -/

/-- State of the persistence machinery: the in-memory record, the ref
captured by the last unsuppressed persist-effect run, the
skip-next-persist flag, and the stored value. -/
structure FlushModel where
  mem : ProgressState
  lastPayload : Option ProgressState
  skipNextPersist : Bool
  storage : Option ProgressState
  deriving Repr, DecidableEq

/-- The payload the persist effect serializes: the record with `savedAt`
stamped to now. -/
def persistPayload (st : ProgressState) (nowIso : String) : ProgressState :=
  { st with savedAt := nowIso }

/-- One run of the reactive persist effect: a suppressed run only consumes
the flag; otherwise the current record is captured into the ref (the 250 ms
timer that later calls `persistNow` is subsumed by the explicit
`flushTimer`/`forcedFlush` steps below). -/
def runPersistEffect (nowIso : String) (m : FlushModel) : FlushModel :=
  if m.skipNextPersist then { m with skipNextPersist := false }
  else { m with lastPayload := some (persistPayload m.mem nowIso) }

/-- `persistNow`: write the captured payload, if any, to storage (and adopt
its `savedAt` stamp). -/
def persistNow (m : FlushModel) : FlushModel :=
  match m.lastPayload with
  | none => m
  | some p => { m with storage := some p, mem := { m.mem with savedAt := p.savedAt } }

/-- A user mutation: the record changes and the persist effect re-runs. -/
def userMutate (r : ProgressState) (nowIso : String) (m : FlushModel) : FlushModel :=
  runPersistEffect nowIso { m with mem := r }

/-- The all-defaults record. -/
def defaultProgress : ProgressState :=
  { plan := [], dayIndex := 0, answers := [], dayProgress := [], revealed := []
    autoNext := true, shufflePractice := false, savedAt := "", lastExportedAt := "" }

/-- `resetProgress` (confirmed): set the suppression flag, remove the stored
value, reset the record to defaults; the persist effect then runs once over
the new state and consumes the flag. -/
def doReset (nowIso : String) (m : FlushModel) : FlushModel :=
  runPersistEffect nowIso
    { m with skipNextPersist := true, storage := none, mem := defaultProgress }

/-- A committed import: set the suppression flag, write the imported record
to storage directly, replace the in-memory record; the persist effect then
runs once and consumes the flag. -/
def doImportCommit (r : ProgressState) (nowIso : String) (m : FlushModel) : FlushModel :=
  runPersistEffect nowIso { m with skipNextPersist := true, storage := some r, mem := r }

/-- A forced-flush point (document hidden or `pagehide`): `persistNow`. -/
def forcedFlush (m : FlushModel) : FlushModel := persistNow m

/-- The model's initial state (first mount, nothing persisted; the initial
effect run captures the initial record). -/
def initialFlushModel : FlushModel :=
  runPersistEffect "t0" { mem := defaultProgress, lastPayload := none
                          skipNextPersist := false, storage := none }

/-! ## Helper lemmas -/

/-- `roundPct` is exactly JS `Math.round((c / a) * 100)` (round half up). -/
lemma roundPct_cast (c a : Nat) (ha : 0 < a) :
    (roundPct c a : ℤ) = ⌊(c : ℚ) / (a : ℚ) * 100 + 1 / 2⌋ := by
  have ha' : (a : ℚ) ≠ 0 := Nat.cast_ne_zero.mpr (by omega)
  have h : (c : ℚ) / (a : ℚ) * 100 + 1 / 2 = ((200 * c + a : ℕ) : ℚ) / ((2 * a : ℕ) : ℚ) := by
    push_cast
    field_simp
    ring
  rw [h, Rat.floor_natCast_div_natCast, roundPct]
  push_cast [Int.ofNat_tdiv]
  rfl

lemma roundPct_le_100 {c a : Nat} (hca : c ≤ a) (ha : 0 < a) : roundPct c a ≤ 100 := by
  have h2a : 0 < 2 * a := by omega
  have : (200 * c + a) / (2 * a) < 101 := by
    rw [Nat.div_lt_iff_lt_mul h2a]
    omega
  unfold roundPct
  omega

lemma statFor_correct_le_answered (answers : AnswerMap) (s : Skill) :
    (statFor answers s).correct ≤ (statFor answers s).answered := by
  unfold statFor
  by_cases h : s.diagnostic.length = 0 <;> simp only [h, if_true, if_false, reduceIte]
  · exact Nat.le_refl 0
  · exact List.Sublist.length_le
      (List.monotone_filter_right _ (fun q hq => by
        simp only [decide_eq_true_eq] at hq
        simp [hq]))

/-! ## Sorting lemmas for `pickPlan` -/

lemma insertRanked_length (x : RankEntry) (l : List RankEntry) :
    (insertRanked x l).length = l.length + 1 := by
  induction l with
  | nil => rfl
  | cons y ys ih => by_cases h : y.mastery < x.mastery <;> simp [insertRanked, h, ih]

lemma sortRanked_length (l : List RankEntry) : (sortRanked l).length = l.length := by
  induction l with
  | nil => rfl
  | cons x xs ih => simp [sortRanked, insertRanked_length, ih]

lemma insertRanked_perm (x : RankEntry) (l : List RankEntry) :
    List.Perm (insertRanked x l) (x :: l) := by
  induction l with
  | nil => exact List.Perm.refl _
  | cons y ys ih =>
    by_cases h : y.mastery < x.mastery
    · simp only [insertRanked, h, if_true, reduceIte]
      exact (List.Perm.cons y ih).trans (List.Perm.swap x y ys)
    · simp [insertRanked, h]

lemma sortRanked_perm (l : List RankEntry) : List.Perm (sortRanked l) l := by
  induction l with
  | nil => exact List.Perm.refl _
  | cons x xs ih => exact (insertRanked_perm x (sortRanked xs)).trans (List.Perm.cons x ih)

lemma insertRanked_pairwise {x : RankEntry} {l : List RankEntry}
    (hl : l.Pairwise (fun a b => a.mastery ≤ b.mastery)) :
    (insertRanked x l).Pairwise (fun a b => a.mastery ≤ b.mastery) := by
  induction l with
  | nil => simp [insertRanked]
  | cons y ys ih =>
    rcases List.pairwise_cons.mp hl with ⟨hy, hys⟩
    by_cases h : y.mastery < x.mastery
    · simp only [insertRanked, h, if_true, reduceIte]
      refine List.pairwise_cons.mpr ⟨?_, ih hys⟩
      intro z hz
      rcases List.mem_cons.mp ((insertRanked_perm x ys).mem_iff.mp hz) with rfl | hz'
      · exact Nat.le_of_lt h
      · exact hy z hz'
    · simp only [insertRanked, h, if_false, reduceIte]
      refine List.pairwise_cons.mpr ⟨?_, hl⟩
      intro z hz
      rcases List.mem_cons.mp hz with rfl | hz'
      · omega
      · have := hy z hz'
        omega

lemma sortRanked_pairwise (l : List RankEntry) :
    (sortRanked l).Pairwise (fun a b => a.mastery ≤ b.mastery) := by
  induction l with
  | nil => simp [sortRanked]
  | cons x xs ih => exact insertRanked_pairwise ih

/-- Inserting walks only past entries of strictly smaller mastery, so the
slice at any given mastery value gains the new entry in front exactly when
it has that mastery. -/
lemma filter_insertRanked (x : RankEntry) (l : List RankEntry) (m : Nat) :
    (insertRanked x l).filter (fun y => y.mastery == m) =
      (if x.mastery == m then [x] else []) ++ l.filter (fun y => y.mastery == m) := by
  induction l with
  | nil => by_cases h : x.mastery = m <;> simp [insertRanked, h]
  | cons y ys ih =>
    by_cases h : y.mastery < x.mastery
    · simp only [insertRanked, h, if_true, reduceIte]
      by_cases hy : y.mastery = m
      · have hx : ¬x.mastery = m := by omega
        simp [List.filter_cons, hy, hx, ih]
      · simp [List.filter_cons, hy, ih]
    · simp only [insertRanked, h, if_false, reduceIte]
      by_cases hx : x.mastery = m <;> simp [List.filter_cons, hx]

/-- Stability of the ranking: at each mastery value, the sorted list lists
the entries in their input order. -/
lemma filter_sortRanked (l : List RankEntry) (m : Nat) :
    (sortRanked l).filter (fun y => y.mastery == m) = l.filter (fun y => y.mastery == m) := by
  induction l with
  | nil => rfl
  | cons x xs ih =>
    rw [sortRanked, filter_insertRanked, ih, List.filter_cons]
    by_cases h : x.mastery = m <;> simp [h]

/-! ## `jsFindIndex` characterization -/

lemma jsFindIndex_go_add {p : α → Bool} (l : List α) (i : Nat) :
    jsFindIndex.go p l i = (jsFindIndex.go p l 0).map (· + i) := by
  induction l generalizing i with
  | nil => rfl
  | cons x xs ih =>
    simp only [jsFindIndex.go]
    by_cases h : p x
    · simp [h]
    · rw [if_neg h, if_neg h, ih (i + 1), ih 1, Option.map_map]
      congr 1
      funext k
      simp only [Function.comp_apply]
      omega

lemma jsFindIndex_cons {p : α → Bool} {x : α} {xs : List α} :
    jsFindIndex p (x :: xs) = if p x then some 0 else (jsFindIndex p xs).map (· + 1) := by
  unfold jsFindIndex
  by_cases h : p x
  · simp [jsFindIndex.go, h]
  · rw [jsFindIndex.go, if_neg h, if_neg h, jsFindIndex_go_add]

lemma jsFindIndex_eq_none_iff {p : α → Bool} {l : List α} :
    jsFindIndex p l = none ↔ ∀ x ∈ l, p x = false := by
  induction l with
  | nil => simp [jsFindIndex, jsFindIndex.go]
  | cons x xs ih =>
    rw [jsFindIndex_cons]
    by_cases h : p x <;> simp [h, ih]

/-- `jsFindIndex` returns exactly the position of the first match. -/
lemma jsFindIndex_eq_some_iff {p : α → Bool} {l : List α} {k : Nat} :
    jsFindIndex p l = some k ↔
      (∃ x, l[k]? = some x ∧ p x = true) ∧
        ∀ j, j < k → ∀ x, l[j]? = some x → p x = false := by
  induction l generalizing k with
  | nil => simp [jsFindIndex, jsFindIndex.go]
  | cons x xs ih =>
    rw [jsFindIndex_cons]
    by_cases h : p x
    · rw [if_pos h]
      constructor
      · intro hk
        obtain rfl : (0 : Nat) = k := Option.some.injEq .. ▸ hk
        exact ⟨⟨x, by simp, h⟩, fun j hj => absurd hj (Nat.not_lt_zero j)⟩
      · rintro ⟨⟨y, hy, hpy⟩, hmin⟩
        cases k with
        | zero => rfl
        | succ k' => exact absurd h (by simpa using hmin 0 (Nat.succ_pos _) x (by simp))
    · rw [if_neg h]
      constructor
      · intro hk
        obtain ⟨k', hk', rfl⟩ := Option.map_eq_some'.mp hk
        obtain ⟨⟨y, hy, hpy⟩, hmin⟩ := ih.mp hk'
        refine ⟨⟨y, by simpa using hy, hpy⟩, ?_⟩
        intro j hj z hz
        cases j with
        | zero =>
          obtain rfl : x = z := by simpa using hz
          simpa using h
        | succ j' => exact hmin j' (by omega) z (by simpa using hz)
      · rintro ⟨⟨y, hy, hpy⟩, hmin⟩
        cases k with
        | zero =>
          obtain rfl : x = y := by simpa using hy
          exact absurd hpy (by simpa using h)
        | succ k' =>
          have hxs : jsFindIndex p xs = some k' :=
            ih.mpr ⟨⟨y, by simpa using hy, hpy⟩,
              fun j hj z hz => hmin (j + 1) (by omega) z (by simpa using hz)⟩
          simp [hxs]

/-! ## Claim C3: `submitDiagnostic` -/

/-- Claim C3.  If some diagnostic question is unanswered, `submitDiagnostic`
reports the position of the first unanswered question (characterized as
unanswered with every earlier question answered) and leaves `plan`,
`dayIndex`, `dayProgress` and `revealed` unchanged; if every question is
answered and the generated plan is nonempty it installs the plan, resets the
day cursor and clears both per-day maps; if the generated plan is empty it
fails leaving the whole state unchanged. -/
theorem submitDiagnostic_spec (skills : List Skill) (st : AppState) :
    ((∃ q ∈ getAllDiagnosticQuestions skills, lookupAnswer st.answers q.id = none) →
      (jsFindIndex (fun q => (lookupAnswer st.answers q.id).isNone)
        (getAllDiagnosticQuestions skills)).isSome) ∧
    (∀ k, jsFindIndex (fun q => (lookupAnswer st.answers q.id).isNone)
        (getAllDiagnosticQuestions skills) = some k →
      (submitDiagnostic skills st).1 = .incomplete k ∧
      (∃ q, (getAllDiagnosticQuestions skills)[k]? = some q ∧
        lookupAnswer st.answers q.id = none) ∧
      (∀ j, j < k → ∀ q, (getAllDiagnosticQuestions skills)[j]? = some q →
        (lookupAnswer st.answers q.id).isSome) ∧
      (submitDiagnostic skills st).2.plan = st.plan ∧
      (submitDiagnostic skills st).2.dayIndex = st.dayIndex ∧
      (submitDiagnostic skills st).2.dayProgress = st.dayProgress ∧
      (submitDiagnostic skills st).2.revealed = st.revealed) ∧
    ((∀ q ∈ getAllDiagnosticQuestions skills, (lookupAnswer st.answers q.id).isSome) →
      (pickPlan (computeMastery skills st.answers) 7 ≠ [] →
        (submitDiagnostic skills st).1 = .ok ∧
        (submitDiagnostic skills st).2.plan = pickPlan (computeMastery skills st.answers) 7 ∧
        (submitDiagnostic skills st).2.dayIndex = 0 ∧
        (submitDiagnostic skills st).2.dayProgress = [] ∧
        (submitDiagnostic skills st).2.revealed = []) ∧
      (pickPlan (computeMastery skills st.answers) 7 = [] →
        (submitDiagnostic skills st).1 = .noTopics ∧
        (submitDiagnostic skills st).2 = st)) := by
  refine ⟨?_, ?_, ?_⟩
  · intro ⟨q, hq, hnone⟩
    cases hfind : jsFindIndex (fun q => (lookupAnswer st.answers q.id).isNone)
        (getAllDiagnosticQuestions skills) with
    | some k => rfl
    | none =>
      have hval := jsFindIndex_eq_none_iff.mp hfind q hq
      simp only [hnone, Option.isNone_none] at hval
      exact absurd hval (by simp)
  · intro k hfind
    obtain ⟨⟨q, hq, hpq⟩, hmin⟩ := jsFindIndex_eq_some_iff.mp hfind
    have hqnone : lookupAnswer st.answers q.id = none := by
      rwa [Option.isNone_iff_eq_none] at hpq
    refine ⟨?_, ⟨q, hq, hqnone⟩, ?_, ?_, ?_, ?_, ?_⟩
    · simp [submitDiagnostic, hfind]
    · intro j hj q' hq'
      have hfalse := hmin j hj q' hq'
      cases hopt : lookupAnswer st.answers q'.id with
      | none => rw [hopt] at hfalse; exact absurd hfalse (by simp)
      | some v => rfl
    · simp [submitDiagnostic, hfind]
    · simp [submitDiagnostic, hfind]
    · simp [submitDiagnostic, hfind]
    · simp [submitDiagnostic, hfind]
  · intro hall
    have hfind : jsFindIndex (fun q => (lookupAnswer st.answers q.id).isNone)
        (getAllDiagnosticQuestions skills) = none :=
      jsFindIndex_eq_none_iff.mpr (fun q hq => by simpa using hall q hq)
    refine ⟨fun hne => ?_, fun he => ?_⟩
    · have hemp : (pickPlan (computeMastery skills st.answers) 7).isEmpty = false := by
        cases hp : pickPlan (computeMastery skills st.answers) 7
        · exact absurd hp hne
        · rfl
      simp only [submitDiagnostic, hfind, hemp]
      exact ⟨rfl, rfl, rfl, rfl, rfl⟩
    · have hemp : (pickPlan (computeMastery skills st.answers) 7).isEmpty = true := by
        rw [he]; rfl
      simp only [submitDiagnostic, hfind, hemp]
      exact ⟨rfl, rfl⟩

/-- Witness for C3: on the real content with only the first `mole` question
answered, submission fails pointing at question index 1 and mutates none of
the four protected fields. -/
theorem submitDiagnostic_spec_witness :
    ((submitDiagnostic SKILLS
      { plan := ["mole"], dayIndex := 0, answers := [("mole_d1", 0)],
        dayProgress := [(0, ⟨true, false⟩)], revealed := [("mole_p1", true)],
        diagIndex := 0, view := .diagnostic }).1 = .incomplete 1 ∧
      (submitDiagnostic SKILLS
      { plan := ["mole"], dayIndex := 0, answers := [("mole_d1", 0)],
        dayProgress := [(0, ⟨true, false⟩)], revealed := [("mole_p1", true)],
        diagIndex := 0, view := .diagnostic }).2.plan = ["mole"]) := by
  have h := (submitDiagnostic_spec SKILLS
    { plan := ["mole"], dayIndex := 0, answers := [("mole_d1", 0)],
      dayProgress := [(0, ⟨true, false⟩)], revealed := [("mole_p1", true)],
      diagIndex := 0, view := .diagnostic }).2.1 1 (by decide)
  exact ⟨h.1, h.2.2.2.1⟩

/-! ## Claim C6: the practice toggle precondition -/

lemma find?_map_updatePractice (dp : DayProgressMap) (day d : Nat) (v : Bool) :
    (dp.map (fun p => if p.1 == day then (p.1, { p.2 with practiceDone := v }) else p)).find?
        (fun p => p.1 == d) =
      (dp.find? (fun p => p.1 == d)).map
        (fun p => if p.1 == day then (p.1, { p.2 with practiceDone := v }) else p) := by
  induction dp with
  | nil => rfl
  | cons x xs ih =>
    rw [List.map_cons]
    by_cases hx : x.1 == day
    · rw [if_pos hx]
      have hx' : x.1 = day := by simpa using hx
      by_cases hd : x.1 == d
      · rw [List.find?_cons_of_pos _ (by simpa using hd),
          List.find?_cons_of_pos _ (by simpa using hd)]
        simp [hx']
      · rw [List.find?_cons_of_neg _ (by simpa using hd),
          List.find?_cons_of_neg _ (by simpa using hd), ih]
    · rw [if_neg hx]
      have hx' : ¬x.1 = day := by simpa using hx
      by_cases hd : x.1 == d
      · rw [List.find?_cons_of_pos _ (by simpa using hd),
          List.find?_cons_of_pos _ (by simpa using hd)]
        simp [hx']
      · rw [List.find?_cons_of_neg _ (by simpa using hd),
          List.find?_cons_of_neg _ (by simpa using hd), ih]

lemma setPracticeDone_find?_ne (dp : DayProgressMap) (day d : Nat) (v : Bool) (hne : d ≠ day) :
    (setPracticeDone dp day v).find? (fun p => p.1 == d) = dp.find? (fun p => p.1 == d) := by
  unfold setPracticeDone
  by_cases hmem : dp.any (fun p => p.1 == day)
  · rw [if_pos hmem, find?_map_updatePractice]
    cases hf : dp.find? (fun p => p.1 == d) with
    | none => rfl
    | some p =>
      have hp := List.find?_some hf
      have hne' : p.1 ≠ day := by
        simp only [beq_iff_eq] at hp
        omega
      simp [hne']
  · rw [if_neg hmem, List.find?_append]
    cases hf : dp.find? (fun p => p.1 == d) with
    | none =>
      have : ¬((day : Nat) == d) := by
        simp only [beq_iff_eq]
        omega
      simp [List.find?_cons, this]
    | some p => rfl

lemma setPracticeDone_at_self (dp : DayProgressMap) (day : Nat) (v : Bool) :
    practiceDoneAt (setPracticeDone dp day v) day = v ∧
      conceptDoneAt (setPracticeDone dp day v) day = conceptDoneAt dp day := by
  unfold practiceDoneAt conceptDoneAt setPracticeDone
  by_cases hmem : dp.any (fun p => p.1 == day)
  · rw [if_pos hmem, find?_map_updatePractice]
    cases hf : dp.find? (fun p => p.1 == day) with
    | none =>
      rw [List.find?_eq_none] at hf
      obtain ⟨x, hx, hpx⟩ := List.any_eq_true.mp hmem
      exact absurd hpx (by simpa using hf x hx)
    | some p =>
      have hp := List.find?_some hf
      have hp' : p.1 = day := by simpa using hp
      simp [hp']
  · rw [if_neg hmem, List.find?_append]
    have hf : dp.find? (fun p => p.1 == day) = none := by
      rw [List.find?_eq_none]
      intro x hx hpx
      exact absurd (List.any_eq_true.mpr ⟨x, hx, hpx⟩) hmem
    simp [hf, List.find?_cons]

/-- Claim C6.  From not-done, the practice toggle is blocked (no mutation of
the day-progress map) whenever some practice question of the day's topic is
unrevealed; once every practice question is revealed it succeeds, setting
`practiceDone` of the current day and changing nothing else (the concept
flag of the day and every other day's entry are untouched); a topic with no
practice questions passes the precondition vacuously. -/
theorem practiceToggle_spec (practiceQs : List Question) (revealed : RevealedMap)
    (dayIndex : Nat) (dp : DayProgressMap)
    (hnotdone : practiceDoneAt dp dayIndex = false) :
    ((∃ q ∈ practiceQs, isRevealed revealed q.id = false) →
      practiceToggle practiceQs revealed dayIndex dp = (.blocked, dp)) ∧
    ((∀ q ∈ practiceQs, isRevealed revealed q.id = true) →
      (practiceToggle practiceQs revealed dayIndex dp).1 = .turnedOn ∧
      practiceDoneAt (practiceToggle practiceQs revealed dayIndex dp).2 dayIndex = true ∧
      conceptDoneAt (practiceToggle practiceQs revealed dayIndex dp).2 dayIndex =
        conceptDoneAt dp dayIndex ∧
      (∀ d, d ≠ dayIndex →
        (practiceToggle practiceQs revealed dayIndex dp).2.find? (fun p => p.1 == d) =
          dp.find? (fun p => p.1 == d))) ∧
    (practiceQs = [] → allPracticeRevealed practiceQs revealed = true) := by
  refine ⟨?_, ?_, ?_⟩
  · intro ⟨q, hq, hfalse⟩
    have hall : allPracticeRevealed practiceQs revealed = false :=
      List.all_eq_false.mpr ⟨q, hq, by simp [hfalse]⟩
    simp [practiceToggle, hnotdone, hall]
  · intro hall
    have hall' : allPracticeRevealed practiceQs revealed = true :=
      List.all_eq_true.mpr (fun q hq => by simp [hall q hq])
    have hred : practiceToggle practiceQs revealed dayIndex dp =
        (.turnedOn, setPracticeDone dp dayIndex true) := by
      simp [practiceToggle, hnotdone, hall']
    rw [hred]
    exact ⟨rfl, (setPracticeDone_at_self dp dayIndex true).1,
      (setPracticeDone_at_self dp dayIndex true).2,
      fun d hd => setPracticeDone_find?_ne dp dayIndex d true hd⟩
  · intro h
    rw [h]
    rfl

/-- Witness for C6: on the `mole` practice bank, toggling with one question
unrevealed is blocked; with every question revealed it succeeds. -/
theorem practiceToggle_spec_witness :
    practiceToggle moleSkill.practice [("mole_p1", true)] 0 [] = (.blocked, []) ∧
    (practiceToggle moleSkill.practice
        (moleSkill.practice.map (fun q => (q.id, true))) 0 []).1 = .turnedOn := by
  constructor
  · exact (practiceToggle_spec moleSkill.practice [("mole_p1", true)] 0 [] (by decide)).1
      ⟨{ id := "mole_p2", choices := ["1.505×10^23", "6.02×10^23", "3.01×10^23", "2.408×10^24"],
         answer := 0 }, by decide, by decide⟩
  · exact ((practiceToggle_spec moleSkill.practice
      (moleSkill.practice.map (fun q => (q.id, true))) 0 [] (by decide)).2.1
      (by decide)).1

/-! ## Claim C2: `pickPlan` -/

/-- Claim C2.  `pickPlan` fills slot `i` (`i < N`) with entry
`pool[i mod |pool|]` of the pool; for a nonempty summary the plan has
exactly `N` entries; the ranking is ascending by mastery with ties kept in
input order (stability phrased per mastery value); with no topics at all the
plan is empty; and on Scenario B (`mole` 3/3 correct, `molar-mass` 0/2
correct) three days cycle to `[molar-mass, mole, molar-mass]`.  The pool
itself (`poolOf`) restricts the ranking to `total > 0`, falling back to the
unrestricted ranking when that restriction is empty. -/
theorem pickPlan_spec :
    (∀ (perSkill : List (String × SkillStat)) (days i : Nat), i < days →
        (pickPlan perSkill days)[i]? =
          ((poolOf perSkill)[i % (poolOf perSkill).length]?).map RankEntry.skillId) ∧
    (∀ (perSkill : List (String × SkillStat)) (days : Nat), perSkill ≠ [] →
        (pickPlan perSkill days).length = days) ∧
    (∀ perSkill, (allRankedOf perSkill).Pairwise (fun a b => a.mastery ≤ b.mastery)) ∧
    (∀ perSkill (m : Nat),
        (allRankedOf perSkill).filter (fun y => y.mastery == m) =
          (perSkill.map (fun p =>
            ({ skillId := p.1, mastery := p.2.mastery, total := p.2.total } : RankEntry))).filter
            (fun y => y.mastery == m)) ∧
    (∀ days, pickPlan [] days = []) ∧
    pickPlan (computeMastery [moleSkill, molarMassSkill]
        [("mole_d1", 0), ("mole_d2", 0), ("mole_d3", 2), ("mm_d1", 0), ("mm_d2", 1)]) 3 =
      ["molar-mass", "mole", "molar-mass"] := by
  refine ⟨?_, ?_, fun perSkill => sortRanked_pairwise _, fun perSkill m => filter_sortRanked _ m,
    fun days => rfl, by decide⟩
  · intro perSkill days i hi
    unfold pickPlan
    by_cases hp : (poolOf perSkill).isEmpty
    · rw [if_pos hp]
      rw [List.isEmpty_iff] at hp
      simp [hp]
    · rw [if_neg hp]
      have hlen : 0 < (poolOf perSkill).length := by
        cases hpool : poolOf perSkill
        · rw [hpool] at hp; simp at hp
        · simp [hpool]
      have hmod : i % (poolOf perSkill).length < (poolOf perSkill).length :=
        Nat.mod_lt _ hlen
      rw [List.getElem?_map, List.getElem?_range hi, List.getElem?_eq_getElem hmod]
      simp [List.getD_eq_getElem _ _ hmod, List.getElem?_eq_getElem hmod]
  · intro perSkill days hne
    have hlen : (allRankedOf perSkill).length = perSkill.length := by
      rw [allRankedOf, sortRanked_length, List.length_map]
    have hp : ¬(poolOf perSkill).isEmpty := by
      unfold poolOf
      by_cases hr : ((allRankedOf perSkill).filter (fun x => 0 < x.total)).isEmpty
      · simp only [hr, if_true, reduceIte]
        rw [List.isEmpty_iff]
        intro h
        exact hne (List.length_eq_zero.mp (by rw [← hlen, h, List.length_nil]))
      · simp [hr]
    rw [pickPlan, if_neg hp, List.length_map, List.length_range]

/-- Witness for C2: Scenario B with three days; slot 1 is pool entry
`1 mod 2`, and the plan has length 3. -/
theorem pickPlan_spec_witness :
    ((pickPlan (computeMastery [moleSkill, molarMassSkill]
        [("mole_d1", 0), ("mole_d2", 0), ("mole_d3", 2), ("mm_d1", 0), ("mm_d2", 1)]) 3)[1]? =
      ((poolOf (computeMastery [moleSkill, molarMassSkill]
        [("mole_d1", 0), ("mole_d2", 0), ("mole_d3", 2), ("mm_d1", 0), ("mm_d2", 1)]))[1 %
          (poolOf (computeMastery [moleSkill, molarMassSkill]
            [("mole_d1", 0), ("mole_d2", 0), ("mole_d3", 2), ("mm_d1", 0), ("mm_d2", 1)])).length]?).map
        RankEntry.skillId) ∧
    (pickPlan (computeMastery [moleSkill, molarMassSkill]
        [("mole_d1", 0), ("mole_d2", 0), ("mole_d3", 2), ("mm_d1", 0), ("mm_d2", 1)]) 3).length = 3 :=
  ⟨pickPlan_spec.1 _ 3 1 (by decide), pickPlan_spec.2.1 _ 3 (by decide)⟩

/-! ## Claim C1: `computeMastery` -/

/-- Claim C1.  For every topic list and every answer map, `computeMastery`
gives each topic a summary with `mastery = round(correct / answered * 100)`
(round half up, computed exactly) when the topic has at least one answered
diagnostic question, and `mastery = 0` when `answered = 0`; a topic with
zero diagnostic questions gets the all-zero summary; division by zero never
occurs (the formula is only used at `answered > 0`) and every mastery value
lies in `[0, 100]` (the lower bound holding by type). -/
theorem computeMastery_spec (skills : List Skill) (answers : AnswerMap)
    (sid : String) (st : SkillStat) (hmem : (sid, st) ∈ computeMastery skills answers) :
    (st.total = 0 → st = ⟨0, 0, 0, 0⟩) ∧
    (st.answered = 0 → st.mastery = 0) ∧
    (0 < st.answered → (st.mastery : ℤ) = ⌊(st.correct : ℚ) / (st.answered : ℚ) * 100 + 1 / 2⌋) ∧
    st.mastery ≤ 100 := by
  rw [computeMastery, List.mem_map] at hmem
  obtain ⟨s, _, heq⟩ := hmem
  injection heq with h1 h2
  subst h2
  have hca := statFor_correct_le_answered answers s
  unfold statFor at hca ⊢
  by_cases h : s.diagnostic.length = 0 <;> simp only [h, if_true, if_false, reduceIte] at hca ⊢
  · exact ⟨fun _ => trivial, fun _ => trivial, fun hpos => absurd hpos (by simp), by simp⟩
  · refine ⟨fun htot => htot.elim, ?_, ?_, ?_⟩
    · intro h0
      simp only [h0, Nat.lt_irrefl, if_false, reduceIte]
    · intro hpos
      simp only [hpos, if_true, reduceIte]
      exact roundPct_cast _ _ hpos
    · by_cases hpos : 0 < (List.filter (fun q => (lookupAnswer answers q.id).isSome) s.diagnostic).length
      · simp only [hpos, if_true, reduceIte]
        exact roundPct_le_100 hca hpos
      · simp [hpos]

/-- Witness for C1: the Scenario-B answer map over the real content; the
`molar-mass` topic has `answered = 2 > 0` and mastery `round(0/2*100) = 0`. -/
theorem computeMastery_spec_witness :
    (("molar-mass", ({ correct := 0, answered := 2, total := 2, mastery := 0 } : SkillStat)) ∈
        computeMastery [moleSkill, molarMassSkill]
          [("mole_d1", 0), ("mole_d2", 0), ("mole_d3", 2), ("mm_d1", 0), ("mm_d2", 1)]) ∧
      (0 < 2 → ((0 : Nat) : ℤ) = ⌊((0 : Nat) : ℚ) / ((2 : Nat) : ℚ) * 100 + 1 / 2⌋) ∧
      (0 : Nat) ≤ 100 := by
  refine ⟨by decide, ?_, ?_⟩
  · have h := computeMastery_spec [moleSkill, molarMassSkill]
      [("mole_d1", 0), ("mole_d2", 0), ("mole_d3", 2), ("mm_d1", 0), ("mm_d2", 1)]
      "molar-mass" { correct := 0, answered := 2, total := 2, mastery := 0 } (by decide)
    exact h.2.2.1
  · have h := computeMastery_spec [moleSkill, molarMassSkill]
      [("mole_d1", 0), ("mole_d2", 0), ("mole_d3", 2), ("mm_d1", 0), ("mm_d2", 1)]
      "molar-mass" { correct := 0, answered := 2, total := 2, mastery := 0 } (by decide)
    exact h.2.2.2


/-! ## Claim C7: `sanitizeImportedAnswers` -/

/-- Counterexample to C7 as stated: the value `1.9` (`mkRat 19 10`) for the
known question `mole_d1` is *not* an integer, yet the entry is kept
(truncated to `1`) rather than dropped — `Math.trunc` runs before any
integrality check. -/
theorem sanitizeImportedAnswers_counterexample :
    sanitizeImportedAnswers SKILLS (some (.obj [("mole_d1", .num (mkRat 19 10))])) =
      [("mole_d1", 1)] ∧ (mkRat 19 10).den ≠ 1 := by
  constructor
  · decide
  · decide

/-- Claim C7 (amended).  `sanitizeImportedAnswers` keeps exactly those
entries whose question id is a currently-known diagnostic question and whose
value coerces (JS `Number`: numbers pass through; strings parse after
whitespace trimming, with fraction, exponent and radix-prefix forms; `[]`
coerces to `0` and a one-element array through its element's string form) to
a finite number whose truncation toward zero lies within the bounds of that
question's choice count; the stored value is that truncation.  Unknown ids
and values that coerce to NaN or an infinity are dropped; non-integer finite
values are kept truncated. -/
theorem sanitizeImportedAnswers_spec (skills : List Skill) (v : Option JVal)
    (qid : String) (i : Int) :
    (qid, i) ∈ sanitizeImportedAnswers skills v ↔
      ∃ val, (qid, val) ∈ jEntriesOpt v ∧
        ∃ len, qChoicesLen skills qid = some len ∧
          ∃ n, jsToNumber val = some n ∧ jsTrunc n = i ∧ 0 ≤ i ∧ i < (len : Int) := by
  unfold sanitizeImportedAnswers
  rw [List.mem_filterMap]
  constructor
  · rintro ⟨⟨qid', val⟩, hmem, hres⟩
    unfold importAnswerEntry at hres
    cases hq : qChoicesLen skills qid' with
    | none =>
      simp only [hq] at hres
      exact Option.noConfusion hres
    | some len =>
      simp only [hq] at hres
      cases hn : jsToNumber val with
      | none =>
        simp only [hn] at hres
        exact Option.noConfusion hres
      | some n =>
        simp only [hn] at hres
        by_cases hb : (decide (jsTrunc n < 0) || decide ((len : Int) ≤ jsTrunc n)) = true
        · rw [if_pos hb] at hres; cases hres
        · rw [if_neg hb] at hres
          have h1 : qid' = qid := congrArg Prod.fst (Option.some.inj hres)
          have h2 : jsTrunc n = i := congrArg Prod.snd (Option.some.inj hres)
          subst h1
          subst h2
          simp only [Bool.or_eq_true, decide_eq_true_eq] at hb
          push_neg at hb
          exact ⟨val, hmem, len, hq, n, hn, rfl, hb.1, hb.2⟩
  · rintro ⟨val, hmem, len, hq, n, hn, rfl, hge, hlt⟩
    refine ⟨(qid, val), hmem, ?_⟩
    unfold importAnswerEntry
    simp only [hq, hn]
    have hcond : ¬(decide (jsTrunc n < 0) || decide ((len : Int) ≤ jsTrunc n)) = true := by
      simp only [Bool.or_eq_true, decide_eq_true_eq]
      push_neg
      exact ⟨hge, hlt⟩
    rw [if_neg hcond]


/-! ## Claim C8: the dropped-entry warning -/

/-- Claim C8.  Importing a payload whose only plan entry names an unknown
topic and whose only answers entry references a nonexistent question drops
exactly those two entries (totalling `1 + 1 = 2`); before anything commits
the user is shown the drop counts and may abort (no state is produced) or
proceed (the sanitized state commits, with both lists empty). -/
theorem importDropWarning_spec (cv : Bool) (now : String) :
    applyImportedProgress SKILLS
        (.obj [("plan", .arr [.str "ghost-skill"]), ("answers", .obj [("ghost_q1", .num 0)])])
        { confirmVersion := cv, confirmDrop := false, nowIso := now } =
      .dropRejected 1 1 ∧
    applyImportedProgress SKILLS
        (.obj [("plan", .arr [.str "ghost-skill"]), ("answers", .obj [("ghost_q1", .num 0)])])
        { confirmVersion := cv, confirmDrop := true, nowIso := now } =
      .applied
        { plan := [], dayIndex := 0, answers := [], dayProgress := [], revealed := []
          autoNext := true, shufflePractice := false, savedAt := now, lastExportedAt := ""
          view := .home } 1 1 ∧
    1 + 1 = 2 :=
  ⟨rfl, rfl, rfl⟩

/-! ## Claim C10: imports without a plan -/

/-- The `Array.isArray(parsed.plan)` test. -/
def planFieldIsArray : Option JVal → Bool
  | some (.arr _) => true
  | _ => false

lemma sanitizeImportedPlan_of_not_array (skills : List Skill) {v : Option JVal}
    (h : planFieldIsArray v = false) : sanitizeImportedPlan skills v = none := by
  cases v with
  | none => rfl
  | some w => cases w <;> first | rfl | exact absurd h (by simp [planFieldIsArray])

lemma clampDayIndex_zero (q : ℚ) : clampDayIndex 0 q = 0 := by
  unfold clampDayIndex jsMax jsMin
  have h0 : ((((0 : Nat) : Int) - 1 : Int) : ℚ) = -1 := by push_cast; ring
  rw [h0]
  by_cases h : (-1 : ℚ) < q
  · rw [if_pos h, if_neg (by norm_num)]
  · rw [if_neg h]
    push_neg at h
    rw [if_neg (by linarith)]

/-- Claim C10.  `applyImportedProgress` accepts every parsed payload object
whose `plan` field is missing or not an array (the user approving any
confirmations): the import commits with an empty plan, the day cursor
clamped to `0`, and the view returned to home, rather than rejecting the
payload. -/
theorem importWithoutPlan_spec (skills : List Skill) (fs : List (String × JVal))
    (env : ImportEnv) (hplan : planFieldIsArray (jget (.obj fs) "plan") = false)
    (hcv : env.confirmVersion = true) (hcd : env.confirmDrop = true) :
    ∃ st dp da, applyImportedProgress skills (.obj fs) env = .applied st dp da ∧
      st.plan = [] ∧ st.dayIndex = 0 ∧ st.view = .home := by
  obtain ⟨cv, cd, now⟩ := env
  simp only at hcv hcd
  subst hcv
  subst hcd
  have hsan := sanitizeImportedPlan_of_not_array skills hplan
  unfold applyImportedProgress
  rw [show (!(jsTruthy (JVal.obj fs) && isObjLike (JVal.obj fs))) = false from rfl, hsan]
  simp only [Bool.not_true, Bool.and_false, Bool.false_eq_true, if_false, Option.getD_none,
    reduceIte]
  exact ⟨_, _, _, rfl, rfl, clampDayIndex_zero _, rfl⟩

/-- Witness for C10: a payload holding only answers imports successfully
with an empty plan, day cursor 0, and the home view. -/
theorem importWithoutPlan_spec_witness :
    ∃ st dp da, applyImportedProgress SKILLS (.obj [("answers", .obj [("mole_d1", .num 0)])])
        { confirmVersion := true, confirmDrop := true, nowIso := "T" } = .applied st dp da ∧
      st.plan = [] ∧ st.dayIndex = 0 ∧ st.view = .home :=
  importWithoutPlan_spec SKILLS [("answers", .obj [("mole_d1", .num 0)])]
    { confirmVersion := true, confirmDrop := true, nowIso := "T" } rfl rfl rfl

/-! ## Claim C9: cross-tab garbage is ignored -/

/-- "Parses as a structurally valid record": the parse succeeded and
produced an object (`typeof === 'object'` and truthy: an object or array). -/
def parsedIsRecord : Option JVal → Bool
  | some (.obj _) => true
  | some (.arr _) => true
  | _ => false

/-- Claim C9.  On a storage event for the progress key whose new value is
present but does not parse as a structurally valid record (unparseable, or a
JSON `null`/boolean/number/string), `onStorage` leaves every field of the
local progress state unchanged. -/
theorem onStorage_ignores_garbage (st : StoreState) (parsed : Option JVal)
    (h : parsedIsRecord parsed = false) :
    (onStorage (.written parsed) st).plan = st.plan ∧
    (onStorage (.written parsed) st).dayIndex = st.dayIndex ∧
    (onStorage (.written parsed) st).answers = st.answers ∧
    (onStorage (.written parsed) st).dayProgress = st.dayProgress ∧
    (onStorage (.written parsed) st).revealed = st.revealed ∧
    (onStorage (.written parsed) st).autoNext = st.autoNext ∧
    (onStorage (.written parsed) st).shufflePractice = st.shufflePractice ∧
    (onStorage (.written parsed) st).savedAt = st.savedAt ∧
    (onStorage (.written parsed) st).lastExportedAt = st.lastExportedAt := by
  have heq : onStorage (.written parsed) st = st := by
    cases parsed with
    | none => rfl
    | some v =>
      cases v with
      | null => rfl
      | bool b => cases b <;> rfl
      | num x =>
        have hguard : (jsTruthy (JVal.num x) && isObjLike (JVal.num x)) = false := by
          simp [isObjLike]
        simp only [onStorage, hguard, Bool.not_false, if_true, reduceIte]
      | str s =>
        have hguard : (jsTruthy (JVal.str s) && isObjLike (JVal.str s)) = false := by
          simp [isObjLike]
        simp only [onStorage, hguard, Bool.not_false, if_true, reduceIte]
      | arr xs => exact absurd h (by simp [parsedIsRecord])
      | obj fs => exact absurd h (by simp [parsedIsRecord])
  rw [heq]
  exact ⟨rfl, rfl, rfl, rfl, rfl, rfl, rfl, rfl, rfl⟩

/-- A concrete populated store state (used by the C9 witness). -/
def demoStoreState : StoreState :=
  { savedAt := "2026-01-01T00:00:00Z", lastExportedAt := "", view := .task, diagIndex := 3
    answers := .obj [("mole_d1", .num 0)], plan := [.str "mole"], dayIndex := 0
    dayProgress := .obj [], revealed := .obj [], autoNext := true, shufflePractice := false
    storageWritable := true, skipNextPersist := false }

/-- Witness for C9: another tab wrote the non-record string payload
`"broken"`; the local plan and answers fields survive. -/
theorem onStorage_ignores_garbage_witness :
    (onStorage (.written (some (.str "broken"))) demoStoreState).plan = demoStoreState.plan ∧
    (onStorage (.written (some (.str "broken"))) demoStoreState).answers =
      demoStoreState.answers :=
  ⟨(onStorage_ignores_garbage demoStoreState (some (.str "broken")) rfl).1,
    (onStorage_ignores_garbage demoStoreState (some (.str "broken")) rfl).2.2.1⟩

/-! ## Claim C5: forced flush after a suppressed persist -/

/-- Claim C5 is false of the code (a bug, contradicting the comments at the
flush effect and at `resetProgress`): after a reset (or import) suppresses
the reactive persist, `lastPersistPayloadRef` still holds the pre-reset
payload, and a forced-flush point (`visibilitychange` to hidden /
`pagehide`) writes that stale payload — here the cleared storage is
resurrected with the pre-reset plan `["mole"]` while the in-memory record
is the default (empty plan). -/
theorem forcedFlush_writes_stale_record_after_reset :
    ((forcedFlush (doReset "t2" (userMutate
        { defaultProgress with plan := ["mole"] } "t1" initialFlushModel))).storage.map
          ProgressState.plan = some ["mole"]) ∧
    (forcedFlush (doReset "t2" (userMutate
        { defaultProgress with plan := ["mole"] } "t1" initialFlushModel))).mem.plan = [] ∧
    ((doReset "t2" (userMutate
        { defaultProgress with plan := ["mole"] } "t1" initialFlushModel)).storage = none) := by
  decide


/-! ## Decimal key roundtrip (for Claim C4) -/

lemma digitVal?_ofNat {d : Nat} (hd : d < 10) :
    digitVal? (Char.ofNat (48 + d)) = some d := by
  interval_cases d <;> decide

lemma takeDigits_map_ofNat (ds : List Nat) (h : ∀ d ∈ ds, d < 10) :
    takeDigits (ds.map (fun d => Char.ofNat (48 + d))) = (ds, []) := by
  induction ds with
  | nil => rfl
  | cons d ds ih =>
    rw [List.map_cons, takeDigits, digitVal?_ofNat (h d (by simp))]
    simp [ih (fun x hx => h x (by simp [hx]))]

lemma stripSign_of_digit {c : Char} (hc : digitVal? c ≠ none) (cs : List Char) :
    stripSign (c :: cs) = (false, c :: cs) := by
  have h1 : ¬c = '-' := fun h => hc (by rw [h]; rfl)
  have h2 : ¬c = '+' := fun h => hc (by rw [h]; rfl)
  simp only [stripSign]
  rw [if_neg h1, if_neg h2]

lemma isJsWhitespace_digitChar {d : Nat} (hd : d < 10) :
    isJsWhitespace (Char.ofNat (48 + d)) = false := by
  interval_cases d <;> decide

lemma dropWhile_isJsWhitespace_digits (l : List Nat) (h : ∀ d ∈ l, d < 10) :
    (l.map (fun d => Char.ofNat (48 + d))).dropWhile isJsWhitespace =
      l.map (fun d => Char.ofNat (48 + d)) := by
  cases l with
  | nil => rfl
  | cons c cs =>
    rw [List.map_cons, List.dropWhile_cons,
      if_neg (by simp [isJsWhitespace_digitChar (h c (by simp))])]

lemma jsTrim_map_digits (ds : List Nat) (h : ∀ d ∈ ds, d < 10) :
    jsTrim (ds.map (fun d => Char.ofNat (48 + d))) =
      ds.map (fun d => Char.ofNat (48 + d)) := by
  unfold jsTrim
  rw [dropWhile_isJsWhitespace_digits ds h, ← List.map_reverse,
    dropWhile_isJsWhitespace_digits ds.reverse
      (fun d hd => h d (List.mem_reverse.mp hd)),
    List.map_reverse, List.reverse_reverse]

lemma radixMarkers_not_digit {d : Nat} (hd : d < 10) :
    (['x', 'X'].contains (Char.ofNat (48 + d)) = false) ∧
    (['o', 'O'].contains (Char.ofNat (48 + d)) = false) ∧
    (['b', 'B'].contains (Char.ofNat (48 + d)) = false) := by
  interval_cases d <;> exact ⟨by decide, by decide, by decide⟩

lemma startsWithRadixPrefix_digits (ds : List Nat) (h : ∀ d ∈ ds, d < 10)
    (markers : List Char)
    (hm : ∀ d : Nat, d < 10 → markers.contains (Char.ofNat (48 + d)) = false) :
    startsWithRadixPrefix (ds.map (fun d => Char.ofNat (48 + d))) markers = false := by
  cases ds with
  | nil => rfl
  | cons a t =>
    cases t with
    | nil => rfl
    | cons b t2 =>
      show (Char.ofNat (48 + a) == '0' && markers.contains (Char.ofNat (48 + b))) = false
      rw [hm b (h b (by simp))]
      exact Bool.and_false _

lemma digits_ne_Infinity (c : Nat) (hc : c < 10) (l : List Char) :
    ¬(Char.ofNat (48 + c) :: l = "Infinity".data) := by
  intro hyp
  have hI : Char.ofNat (48 + c) = 'I' := by
    have h1 := congrArg (fun t => t.headD 'z') hyp
    simp only [List.headD_cons] at h1
    rw [h1]
  interval_cases c <;> exact absurd hI (by decide)

lemma parseJsNumber_digitString (ds : List Nat) (hne : ds ≠ []) (h : ∀ d ∈ ds, d < 10) :
    parseJsNumber (String.mk (ds.map (fun d => Char.ofNat (48 + d)))) =
      some ((Nat.ofDigits 10 ds.reverse : ℕ) : ℚ) := by
  have hdata : (String.mk (ds.map (fun d => Char.ofNat (48 + d)))).data =
      ds.map (fun d => Char.ofNat (48 + d)) := rfl
  obtain ⟨c, cs, rfl⟩ : ∃ c cs, ds = c :: cs := by
    cases ds with
    | nil => exact absurd rfl hne
    | cons c cs => exact ⟨c, cs, rfl⟩
  have hdig : digitVal? (Char.ofNat (48 + c)) ≠ none := by
    rw [digitVal?_ofNat (h c (by simp))]
    exact Option.noConfusion
  unfold parseJsNumber
  rw [hdata, jsTrim_map_digits _ h]
  rw [if_neg (by simp)]
  rw [if_neg (by
    rw [startsWithRadixPrefix_digits _ h ['x', 'X']
      (fun d hd => (radixMarkers_not_digit hd).1)]
    exact Bool.false_ne_true)]
  rw [if_neg (by
    rw [startsWithRadixPrefix_digits _ h ['o', 'O']
      (fun d hd => (radixMarkers_not_digit hd).2.1)]
    exact Bool.false_ne_true)]
  rw [if_neg (by
    rw [startsWithRadixPrefix_digits _ h ['b', 'B']
      (fun d hd => (radixMarkers_not_digit hd).2.2)]
    exact Bool.false_ne_true)]
  unfold parseJsSigned
  rw [List.map_cons, stripSign_of_digit hdig]
  dsimp only
  rw [if_neg (digits_ne_Infinity c (h c (by simp)) _)]
  rw [show Char.ofNat (48 + c) :: List.map (fun d => Char.ofNat (48 + d)) cs =
    List.map (fun d => Char.ofNat (48 + d)) (c :: cs) from rfl]
  unfold parseDecimalBody
  simp only [takeDigits_map_ofNat _ h]
  rw [if_neg (by simp)]
  simp [Nat.coe_ofDigits]

/-- JS `Number(String(n))` gives `n` back for a nonnegative integer key. -/
lemma parseJsNumber_natKey (n : Nat) : parseJsNumber (natKey n) = some (n : ℚ) := by
  by_cases h0 : n = 0
  · subst h0
    show parseJsNumber "0" = some 0
    rw [show ("0" : String) = String.mk (([0] : List Nat).map
      (fun d => Char.ofNat (48 + d))) from rfl]
    rw [parseJsNumber_digitString [0] (by simp) (by simp)]
    norm_num
  · rw [natKey, if_neg h0]
    rw [parseJsNumber_digitString _ (by
        simp only [ne_eq, List.reverse_eq_nil_iff]
        exact Nat.digits_ne_nil_iff_ne_zero.mpr h0)
      (fun d hd => Nat.digits_lt_base (by norm_num) (List.mem_reverse.mp hd))]
    rw [List.reverse_reverse, Nat.ofDigits_digits]


/-! ## Sanitizer roundtrips on valid data (for Claim C4) -/

lemma jsTrunc_intCast (i : Int) : jsTrunc ((i : ℚ)) = i := by
  unfold jsTrunc
  by_cases h : (0 : ℚ) ≤ (i : ℚ)
  · rw [if_pos h, Int.floor_intCast]
  · rw [if_neg h, Int.ceil_intCast]

lemma filterMap_map_eq_self {α β : Type} (f : α → β) (g : β → Option α) (l : List α)
    (h : ∀ x ∈ l, g (f x) = some x) : (l.map f).filterMap g = l := by
  induction l with
  | nil => rfl
  | cons x xs ih =>
    rw [List.map_cons, List.filterMap_cons, h x (by simp),
      ih (fun y hy => h y (by simp [hy]))]

lemma importPlanEntry_known (skills : List Skill) (sid : String)
    (h : sid ∈ skills.map Skill.id) : importPlanEntry skills (.str sid) = some sid := by
  show (if (skills.map (fun x => x.id)).contains sid = true then some sid else none) = some sid
  rw [if_pos (show (skills.map (fun x => x.id)).contains sid = true from
    List.elem_eq_true_of_mem h)]

lemma sanitizeImportedPlan_roundtrip (skills : List Skill) (plan : List String)
    (h : ∀ sid ∈ plan, sid ∈ skills.map Skill.id) :
    sanitizeImportedPlan skills (some (.arr (plan.map .str))) = some plan := by
  show some ((plan.map JVal.str).filterMap (importPlanEntry skills)) = some plan
  rw [filterMap_map_eq_self _ _ _ (fun sid hs => importPlanEntry_known skills sid (h sid hs))]

lemma importAnswerEntry_intVal (skills : List Skill) (qid : String) (i : Int) (len : Nat)
    (hq : qChoicesLen skills qid = some len) (hge : 0 ≤ i) (hlt : i < (len : Int)) :
    importAnswerEntry skills (qid, .num (i : ℚ)) = some (qid, i) := by
  unfold importAnswerEntry
  simp only [hq, jsToNumber, jsTrunc_intCast]
  rw [if_neg (by
    simp only [Bool.or_eq_true, decide_eq_true_eq]
    push_neg
    exact ⟨hge, hlt⟩)]

lemma sanitizeImportedAnswers_roundtrip (skills : List Skill) (answers : AnswerMap)
    (h : ∀ p ∈ answers, ∃ len, qChoicesLen skills p.1 = some len ∧ 0 ≤ p.2 ∧ p.2 < (len : Int)) :
    sanitizeImportedAnswers skills
      (some (.obj (answers.map (fun p => (p.1, JVal.num (p.2 : ℚ)))))) = answers := by
  unfold sanitizeImportedAnswers
  rw [show jEntriesOpt (some (.obj (answers.map (fun p => (p.1, JVal.num (p.2 : ℚ)))))) =
    answers.map (fun p => (p.1, JVal.num (p.2 : ℚ))) from rfl]
  refine filterMap_map_eq_self _ _ _ (fun p hp => ?_)
  obtain ⟨len, hq, hge, hlt⟩ := h p hp
  exact importAnswerEntry_intVal skills p.1 p.2 len hq hge hlt

lemma importRevealedEntry_known (skills : List Skill) (qid : String) (b : Bool)
    (h : qid ∈ practiceIdList skills) :
    importRevealedEntry skills (qid, .bool b) = some (qid, b) := by
  show (if (practiceIdList skills).contains qid = true
      then some (qid, jsTruthy (.bool b)) else none) = some (qid, b)
  rw [if_pos (show (practiceIdList skills).contains qid = true from
    List.elem_eq_true_of_mem h)]
  rfl

lemma sanitizeImportedRevealed_roundtrip (skills : List Skill) (revealed : RevealedMap)
    (h : ∀ p ∈ revealed, p.1 ∈ practiceIdList skills) :
    sanitizeImportedRevealed skills
      (some (.obj (revealed.map (fun p => (p.1, JVal.bool p.2))))) = revealed := by
  unfold sanitizeImportedRevealed
  rw [show jEntriesOpt (some (.obj (revealed.map (fun p => (p.1, JVal.bool p.2))))) =
    revealed.map (fun p => (p.1, JVal.bool p.2)) from rfl]
  exact filterMap_map_eq_self _ _ _
    (fun p hp => importRevealedEntry_known skills p.1 p.2 (h p hp))

/-- The JSON encoding of one day-progress entry. -/
def dayEntryJson (p : Nat × DayEntry) : String × JVal :=
  (natKey p.1, JVal.obj [("conceptDone", .bool p.2.conceptDone),
                         ("practiceDone", .bool p.2.practiceDone)])

lemma importDayProgressEntry_json (planLen : Nat) (p : Nat × DayEntry)
    (h : p.1 < planLen) : importDayProgressEntry planLen (dayEntryJson p) = some p := by
  unfold importDayProgressEntry
  rw [show (dayEntryJson p).1 = natKey p.1 from rfl]
  simp only [parseJsNumber_natKey]
  rw [if_pos (show (((p.1 : ℕ) : ℚ)).den = 1 from rfl)]
  rw [show (((p.1 : ℕ) : ℚ)).num = (p.1 : Int) from rfl]
  rw [if_neg (by
    simp only [Bool.or_eq_true, decide_eq_true_eq]
    push_neg
    constructor
    · positivity
    · exact_mod_cast h)]
  rw [if_pos (show isObjLike (dayEntryJson p).2 = true from rfl)]
  rw [show ((p.1 : Int)).toNat = p.1 from rfl]
  rw [show jsTruthyOpt (jget (dayEntryJson p).2 "conceptDone") = p.2.conceptDone from rfl,
    show jsTruthyOpt (jget (dayEntryJson p).2 "practiceDone") = p.2.practiceDone from rfl]

lemma sanitizeImportedDayProgress_roundtrip (dp : DayProgressMap) (planLen : Nat)
    (h : ∀ p ∈ dp, p.1 < planLen) :
    sanitizeImportedDayProgress (some (.obj (dp.map dayEntryJson))) planLen = dp := by
  unfold sanitizeImportedDayProgress
  rw [show jEntriesOpt (some (.obj (dp.map dayEntryJson))) = dp.map dayEntryJson from rfl]
  exact filterMap_map_eq_self _ _ _ (fun p hp => importDayProgressEntry_json planLen p (h p hp))


/-! ## Payload lookups and the day-cursor clamp (for Claim C4) -/

lemma clampDayIndex_of_lt {len d : Nat} (h : d < len) :
    clampDayIndex len ((d : ℕ) : ℚ) = ((d : ℕ) : ℚ) := by
  unfold clampDayIndex jsMax jsMin
  have hle : ((d : ℕ) : ℚ) ≤ (((len : ℤ) - 1 : ℤ) : ℚ) := by
    push_cast
    have : (d : ℚ) + 1 ≤ (len : ℚ) := by exact_mod_cast Nat.succ_le_of_lt h
    linarith
  have hnotlt : ¬((((len : ℤ) - 1 : ℤ) : ℚ) < ((d : ℕ) : ℚ)) := not_lt.mpr hle
  rw [if_neg hnotlt]
  by_cases h0 : (0 : ℚ) < ((d : ℕ) : ℚ)
  · rw [if_pos h0]
  · rw [if_neg h0]
    push_neg at h0
    have hz : ((d : ℕ) : ℚ) = 0 := le_antisymm h0 (by positivity)
    rw [hz]

lemma jget_exportPayload (st : ProgressState) (nowIso : String)
    (av bt : Option String) (dev : JVal) :
    jget (exportPayload st nowIso av bt dev) "version" = some (.num 1) ∧
    jget (exportPayload st nowIso av bt dev) "plan" = some (.arr (st.plan.map .str)) ∧
    jget (exportPayload st nowIso av bt dev) "dayIndex" = some (.num ((st.dayIndex : ℕ) : ℚ)) ∧
    jget (exportPayload st nowIso av bt dev) "answers" =
      some (.obj (st.answers.map (fun p => (p.1, JVal.num (p.2 : ℚ))))) ∧
    jget (exportPayload st nowIso av bt dev) "dayProgress" =
      some (.obj (st.dayProgress.map dayEntryJson)) ∧
    jget (exportPayload st nowIso av bt dev) "revealed" =
      some (.obj (st.revealed.map (fun p => (p.1, JVal.bool p.2)))) ∧
    jget (exportPayload st nowIso av bt dev) "autoNext" = some (.bool st.autoNext) ∧
    jget (exportPayload st nowIso av bt dev) "shufflePractice" =
      some (.bool st.shufflePractice) ∧
    jget (exportPayload st nowIso av bt dev) "savedAt" =
      (if st.savedAt = "" then none else some (.str st.savedAt)) := by
  cases av <;> cases bt <;> by_cases hs : st.savedAt = "" <;>
    refine ⟨?_, ?_, ?_, ?_, ?_, ?_, ?_, ?_, ?_⟩ <;>
    simp [exportPayload, jget, dayEntryJson, hs, List.find?_append, List.find?_cons]


/-! ## Claim C4: export → import roundtrip -/

/-- A valid in-app progress state: every plan entry names a known skill,
every answer is an in-bounds integer choice of a known diagnostic question,
day-progress keys lie within the plan, revealed keys are known practice
questions, and the day cursor is in range (`0` for an empty plan).  These
invariants hold of every state the app itself produces; they are exactly
what the import sanitizers check. -/
def ValidProgress (skills : List Skill) (st : ProgressState) : Prop :=
  (∀ sid ∈ st.plan, sid ∈ skills.map Skill.id) ∧
  (∀ p ∈ st.answers, ∃ len, qChoicesLen skills p.1 = some len ∧ 0 ≤ p.2 ∧ p.2 < (len : Int)) ∧
  (∀ p ∈ st.dayProgress, p.1 < st.plan.length) ∧
  (∀ p ∈ st.revealed, p.1 ∈ practiceIdList skills) ∧
  (st.plan = [] → st.dayIndex = 0) ∧
  (st.plan ≠ [] → st.dayIndex < st.plan.length)

/-- Claim C4.  Exporting any valid progress state and importing the exact
payload reproduces an equivalent record — same plan, answers, day progress,
revealed map, autoNext and shufflePractice flags (and day cursor) — with
nothing dropped and no confirmation required, modulo the updated
`savedAt`/`lastExportedAt` stamps. -/
theorem exportImport_roundtrip (skills : List Skill) (st : ProgressState)
    (h : ValidProgress skills st) (nowIso now2 : String) (av bt : Option String)
    (dev : JVal) (cv cd : Bool) :
    ∃ st', applyImportedProgress skills (exportPayload st nowIso av bt dev)
        { confirmVersion := cv, confirmDrop := cd, nowIso := now2 } = .applied st' 0 0 ∧
      st'.plan = st.plan ∧ st'.dayIndex = ((st.dayIndex : ℕ) : ℚ) ∧
      st'.answers = st.answers ∧ st'.dayProgress = st.dayProgress ∧
      st'.revealed = st.revealed ∧ st'.autoNext = st.autoNext ∧
      st'.shufflePractice = st.shufflePractice := by
  obtain ⟨hplan, hans, hdp, hrev, hempty, hinrange⟩ := h
  obtain ⟨hv, hp, hd, ha, hdpj, hrj, han, hsp, hsv⟩ := jget_exportPayload st nowIso av bt dev
  have hday : clampDayIndex st.plan.length ((st.dayIndex : ℕ) : ℚ) =
      ((st.dayIndex : ℕ) : ℚ) := by
    by_cases hne : st.plan = []
    · rw [hne, hempty hne]
      simpa using clampDayIndex_zero ((0 : ℕ) : ℚ)
    · exact clampDayIndex_of_lt (hinrange hne)
  unfold applyImportedProgress
  rw [show (!(jsTruthy (exportPayload st nowIso av bt dev) &&
    isObjLike (exportPayload st nowIso av bt dev))) = false from rfl]
  simp only [hv, hp, hd, ha, hdpj, hrj, han, hsp, hsv, jsToNumber,
    sanitizeImportedPlan_roundtrip skills st.plan hplan,
    sanitizeImportedAnswers_roundtrip skills st.answers hans,
    sanitizeImportedRevealed_roundtrip skills st.revealed hrev,
    sanitizeImportedDayProgress_roundtrip st.dayProgress st.plan.length hdp,
    Option.getD_some, List.length_map, Nat.sub_self, jsTruthy, isObjLike, jEntries,
    Bool.and_true, Bool.and_false, Bool.false_and, Bool.false_eq_true, if_false,
    Nat.lt_irrefl, Bool.or_self, reduceIte, hday]
  exact ⟨_, rfl, rfl, rfl, rfl, rfl, rfl, rfl, rfl⟩


/-- A concrete valid progress state (used by the C4 witness). -/
def c4Demo : ProgressState :=
  { plan := ["mole", "molar-mass"], dayIndex := 1, answers := [("mole_d1", 2)]
    dayProgress := [(0, ⟨true, true⟩)], revealed := [("mole_p1", true)]
    autoNext := false, shufflePractice := true
    savedAt := "2026-01-01T00:00:00Z", lastExportedAt := "" }

/-- Witness for C4: exporting and re-importing `c4Demo` reproduces it. -/
theorem exportImport_roundtrip_witness :
    ∃ st', applyImportedProgress SKILLS (exportPayload c4Demo "E" none none .null)
        { confirmVersion := false, confirmDrop := false, nowIso := "N" } = .applied st' 0 0 ∧
      st'.plan = c4Demo.plan ∧ st'.dayIndex = ((c4Demo.dayIndex : ℕ) : ℚ) ∧
      st'.answers = c4Demo.answers ∧ st'.dayProgress = c4Demo.dayProgress ∧
      st'.revealed = c4Demo.revealed ∧ st'.autoNext = c4Demo.autoNext ∧
      st'.shufflePractice = c4Demo.shufflePractice :=
  exportImport_roundtrip SKILLS c4Demo
    ⟨by decide, by
      intro p hp
      rw [show c4Demo.answers = [("mole_d1", 2)] from rfl, List.mem_singleton] at hp
      subst hp
      exact ⟨4, rfl, by norm_num, by norm_num⟩,
     by decide, by decide, fun hh => absurd hh (by decide), fun _ => by decide⟩
    "E" "N" none none .null false false

end ChemReview
